import Mathlib

set_option linter.unusedVariables false

/-!
Shallow embedding of the adaptive plan-execution engine of `src/agent.py`
(class `SecAgent`): the error classifier `_classify_error`, the predefined
fallback engine (`_try_predefined_fallback` and the three `_fallback_*`
strategies), the LLM replanner result handling (`_replan_with_llm`), the
single-step executor (`_execute_single_tool_step`), the partial-result
builder (`_handle_partial_success`) and the main loop
(`_execute_plan_with_replanning`).

Python dicts are embedded as association lists with first-match lookup and
in-place update.  Exceptions raised by tool execution are embedded as
`Except.error` carrying `str(e)`, which is how the engine's
`except Exception as e` observes them.  External collaborators (the tool
methods and the reasoning LLM) are oracles indexed by the number of calls
made so far, which is general enough because the engine is deterministic.

The primary embedding reads an absent key and a stored `None` identically
(`none`) and thereby totalizes the corners in which the source raises an
exception of its own instead of returning: the already-tried scans of the
fallback engine raise AttributeError on an attempt record whose stored
'parameters' is `None` (agent.py:613, 634, 689), a truthy non-numeric
'year' raises TypeError at the decrement (agent.py:630), and a truthy
non-string identifier raises AttributeError at `.endswith` (agent.py:685).
(A step whose 'tool_parameters' key is stored as `None` is different: the
executor's `tool_method(**None)` raises TypeError, which
`_execute_single_tool_step` itself converts into an ordinary
`'Invalid parameters for ...'` step failure — the case `ToolReply.raisedType`
covers.)  The raising corners are embedded faithfully in the crash-aware
layer further down (`PyErr`, `tryPredefinedFallbackPy`, `runPlanPy`), which
claim C8 uses to exhibit a reachable escape of the recovery loop; the
theorems about the total engine hold of the program on every input on which
the source returns at all, a crashing run returning no trace.
-/

/-- Python values that appear in parameter maps and step dicts. -/
inductive Val
  | str (s : String)
  | int (n : Int)
  | bool (b : Bool)
  | vnone
deriving DecidableEq, Repr

/-- A Python dict used as a parameter map. -/
abbrev Params := List (String × Val)

/-- Embedding of `d.get(k)`: the first binding of `k`, `none` when absent. -/
def pget : Params → String → Option Val
  | [], _ => none
  | (k', v) :: rest, k => if k' = k then some v else pget rest k

/-- Embedding of `d[k] = v`: overwrite the binding in place or append it. -/
def pset : Params → String → Val → Params
  | [], k, v => [(k, v)]
  | (k', v') :: rest, k, v =>
      if k' = k then (k, v) :: rest else (k', v') :: pset rest k v

/-- Python truthiness for the embedded values. -/
def truthy : Val → Bool
  | .str s => s ≠ ""
  | .int n => n ≠ 0
  | .bool b => b
  | .vnone => false

/-- Python `str()` for the embedded values. -/
def pyStr : Val → String
  | .str s => s
  | .int n => toString n
  | .bool b => if b then "True" else "False"
  | .vnone => "None"

/-- ASCII lower-casing; `str.lower()` on the ASCII messages involved. -/
def lowerChar (c : Char) : Char :=
  if 'A' ≤ c ∧ c ≤ 'Z' then Char.ofNat (c.toNat + 32) else c

/-- Embedding of `s.lower()`. -/
def lowerStr (s : String) : String := String.mk (s.data.map lowerChar)

/-- Whether `pat` is an initial segment of `s`. -/
def listHasInit : List Char → List Char → Bool
  | [], _ => true
  | _ :: _, [] => false
  | c :: cs, d :: ds => c = d && listHasInit cs ds

/-- Whether `pat` occurs as a contiguous sublist of the second list. -/
def listHasSub (pat : List Char) : List Char → Bool
  | [] => pat.isEmpty
  | c :: rest => listHasInit pat (c :: rest) || listHasSub pat rest

/-- Embedding of Python's substring test `pat in s`. -/
def containsS (s pat : String) : Bool := listHasSub pat.data s.data

/-- Enum `ErrorType` of `agent.py`. -/
inductive ErrorType
  | recoverable
  | rateLimit
  | unrecoverable
deriving DecidableEq, Repr

/-- The `unrecoverable_patterns` list of `SecAgent._classify_error`. -/
def unrecoverablePatterns : List String :=
  ["invalid cik format", "authentication failed", "network unreachable",
   "invalid tool", "method not found"]

/-- The `rate_limit_patterns` list of `SecAgent._classify_error`. -/
def rateLimitPatterns : List String :=
  ["rate limit", "429", "too many requests", "quota exceeded"]

/-- Embedding of `SecAgent._classify_error`. -/
def classifyError (errorMessage : String) : ErrorType :=
  let errorLower := lowerStr errorMessage
  if unrecoverablePatterns.any (fun p => containsS errorLower p) then
    .unrecoverable
  else if rateLimitPatterns.any (fun p => containsS errorLower p) then
    .rateLimit
  else
    .recoverable

/-- A plan step dict.  Field names follow the keys used by `agent.py`
(`step`, `action_type`, `description`, `tool`, `tool_parameters`,
`expected_output`, `reasoning`); a `none` field is an absent key (or a
`None` value, which every read via `.get` treats identically). -/
structure StepD where
  step : Option Int := none
  action_type : Option String := none
  description : Option String := none
  tool : Option String := none
  tool_parameters : Option Params := none
  expected_output : Option Val := none
  reasoning : Option Val := none
deriving DecidableEq, Repr

/-- `step.get('step', '?')` as it is placed into result records. -/
def numVal (s : StepD) : Val :=
  match s.step with
  | some n => .int n
  | none => .str "?"

/-- One entry of the `attempted_approaches` list:
`{'tool': ..., 'parameters': ..., 'error': ...}`. -/
structure AttemptRec where
  tool : Option String
  parameters : Option Params
  error : String
deriving DecidableEq, Repr

/-- Reading `a.get('parameters', {})` of an attempt record, totalized.  The
engine always sets the 'parameters' key, so the `{}` default of the source
never applies: on a record whose stored 'parameters' is `None` the
subsequent `.get` raises AttributeError — `attParamsPy` below embeds that
raise, and claim C8 shows it reachable.  This total reading agrees with the
source on every input on which the source returns. -/
def attParams (a : AttemptRec) : Params := a.parameters.getD []

/-- The `alternative_forms` swap table of `FALLBACK_STRATEGIES["filing_not_found"]`. -/
def alternativeForms (formType : String) : Option String :=
  if formType = "10-K" then some "10-Q"
  else if formType = "10-Q" then some "10-K"
  else none

/-- Embedding of `SecAgent._fallback_filing_not_found`, totalized: first try
the alternative form type, then the previous year (stopping below 2010),
each guarded against values already present in `attempted_approaches`.
Where the source raises — a `None` 'parameters' record in a scan, a truthy
non-numeric 'year' at the decrement — this embedding returns `none`; the
raises themselves are embedded by `fallbackFilingNotFoundPy` below. -/
def fallbackFilingNotFound (failedStep : StepD) (attempted : List AttemptRec) :
    Option StepD :=
  let originalParams := failedStep.tool_parameters.getD []
  let tryForm : Option StepD :=
    match pget originalParams "form_type" with
    | some (.str formType) =>
        match alternativeForms formType with
        | some altForm =>
            let alreadyTried := attempted.any fun a =>
              decide (pget (attParams a) "form_type" = some (.str altForm))
            if alreadyTried then none
            else some { failedStep with
              tool_parameters := some (pset originalParams "form_type" (.str altForm)) }
        | none => none
    | _ => none
  match tryForm with
  | some s => some s
  | none =>
      match pget originalParams "year" with
      | some (.int year) =>
          if year ≠ 0 then
            let newYear := year + (-1)
            let alreadyTried := attempted.any fun a =>
              decide (pget (attParams a) "year" = some (.int newYear))
            if ¬ alreadyTried ∧ newYear ≥ 2010 then
              some { failedStep with
                tool_parameters := some (pset originalParams "year" (.int newYear)) }
            else none
          else none
      | _ => none

/-- The `remove_suffixes` table of `FALLBACK_STRATEGIES["company_not_found"]`. -/
def removeSuffixes : List String := [" Inc", " Corp", " LLC", " Corporation"]

/-- The suffix loop of `_fallback_company_not_found`: for the first suffix
the identifier ends with and whose stripped form is not yet attempted,
retry the same tool with the cleaned identifier. -/
def suffixLoopCompany (failedStep : StepD) (originalParams : Params)
    (identifier : String) (attempted : List AttemptRec) :
    List String → Option StepD
  | [] => none
  | suffix :: rest =>
      if identifier.endsWith suffix then
        let cleanIdentifier := (identifier.dropRight suffix.length).trim
        let alreadyTried := attempted.any fun a =>
          decide (pget (attParams a) "identifier" = some (.str cleanIdentifier))
        if ¬ alreadyTried then
          some { failedStep with
            tool_parameters :=
              some (pset originalParams "identifier" (.str cleanIdentifier)) }
        else suffixLoopCompany failedStep originalParams identifier attempted rest
      else suffixLoopCompany failedStep originalParams identifier attempted rest

/-- `original_params.get('identifier') or original_params.get('cik_or_ticker')`. -/
def companyIdentifier (originalParams : Params) : Option Val :=
  match pget originalParams "identifier" with
  | some v => if truthy v then some v else pget originalParams "cik_or_ticker"
  | none => pget originalParams "cik_or_ticker"

/-- Embedding of `SecAgent._fallback_company_not_found`, totalized: first
substitute a `search_companies` step when not yet attempted, else strip a
known corporate suffix from the identifier.  Where the source raises — a
truthy non-string identifier at `.endswith`, a `None` 'parameters' record
in the suffix scan — this embedding returns `none`; the raises themselves
are embedded by `fallbackCompanyNotFoundPy` below. -/
def fallbackCompanyNotFound (failedStep : StepD) (attempted : List AttemptRec) :
    Option StepD :=
  let originalParams := failedStep.tool_parameters.getD []
  match companyIdentifier originalParams with
  | none => none
  | some identifierV =>
      if ¬ truthy identifierV then none
      else
        let alreadyTriedSearch := attempted.any fun a =>
          decide (a.tool = some "search_companies")
        if ¬ alreadyTriedSearch then
          some { step := failedStep.step,
                 description := some ("Search for company: " ++ pyStr identifierV),
                 action_type := some "tool_call",
                 tool := some "search_companies",
                 tool_parameters := some [("query", identifierV), ("limit", .int 5)],
                 expected_output :=
                   some (.str ("Company search results for " ++ pyStr identifierV)) }
        else
          match identifierV with
          | .str identifier =>
              suffixLoopCompany failedStep originalParams identifier attempted
                removeSuffixes
          | _ => none

/-- Embedding of `SecAgent._fallback_data_not_found`: redirect to the
`get_company_facts` tool when not yet attempted.  (The
`metric_alternatives` strategy entry matches no branch of the function
body, exactly as in the source.) -/
def fallbackDataNotFound (failedStep : StepD) (attempted : List AttemptRec) :
    Option StepD :=
  let alreadyTried := attempted.any fun a =>
    decide (a.tool = some "get_company_facts")
  if ¬ alreadyTried then
    let originalParams := failedStep.tool_parameters.getD []
    match companyIdentifier originalParams with
    | some identifierV =>
        if truthy identifierV then
          some { step := failedStep.step,
                 description := some "Get company facts as alternative",
                 action_type := some "tool_call",
                 tool := some "get_company_facts",
                 tool_parameters := some [("identifier", identifierV)],
                 expected_output := some (.str "Company financial facts") }
        else none
    | none => none
  else none

/-- Result of parsing the reasoning-collaborator's response inside
`_replan_with_llm`: an empty `content`; a content on which `json.loads`
raises (any other exception lands in the same handler); or a parsed JSON
object.  The object is embedded by its top-level fields, `Val.vnone`
standing for a stored JSON null, so an absent key (`pget _ k = none`) and a
null-valued key (`pget _ k = some .vnone`) are distinct — the distinction
the validation below tests.  (Field values are kept only as far as the
function reads them, and it reads none.) -/
inductive ReplanParse
  | empty
  | parseFailure
  | parsedObj (obj : Params)
deriving DecidableEq, Repr

/-- Embedding of the response handling of `SecAgent._replan_with_llm`: empty
and unparseable responses yield no step, and a parsed object is validated
by key PRESENCE — the source checks
`all(k in replanned_step for k in ['tool', 'tool_parameters'])` — so the
object is returned unchanged whenever both keys are present, even when a
key is stored with JSON null. -/
def replanWithLLM : ReplanParse → Option Params
  | .empty => none
  | .parseFailure => none
  | .parsedObj obj =>
      if (pget obj "tool").isSome ∧ (pget obj "tool_parameters").isSome then
        some obj
      else none

/-- Outcome of one `_replan_with_llm` call as the retry loop consumes it:
either a replanned step, given as the engine's later `.get`-based reads see
it, or nothing.  This engine-side abstraction of `replanWithLLM` is what
the oracle `Cfg.llmBeh` ranges over; it is adequate for the engine-level
theorems because they quantify over every outcome. -/
inductive ReplanResponse
  | empty
  | parseFailure
  | parsed (s : StepD)
deriving Repr

/-- The step the retry loop receives from a `_replan_with_llm` call:
`none` for a degenerate response, the offered step otherwise (compare
`replanWithLLM`, which embeds the validation itself). -/
def llmReplanOutcome : ReplanResponse → Option StepD
  | .empty => none
  | .parseFailure => none
  | .parsed s =>
      if s.tool.isSome ∧ s.tool_parameters.isSome then some s else none

/-- Embedding of `SecAgent._try_predefined_fallback`: dispatch on the
error-message content to one of the three strategies. -/
def tryPredefinedFallback (failedStep : StepD) (errorMessage : String)
    (attempted : List AttemptRec) : Option StepD :=
  let errorLower := lowerStr errorMessage
  if containsS errorLower "not found" || containsS errorLower "no filings found" then
    if containsS errorLower "filing" || containsS errorLower "10-k" ||
        containsS errorLower "10-q" then
      fallbackFilingNotFound failedStep attempted
    else if containsS errorLower "company" || containsS errorLower "cik" then
      fallbackCompanyNotFound failedStep attempted
    else
      fallbackDataNotFound failedStep attempted
  else
    none

/-- What one call of a registered tool method does, as the executor can
observe it: raise `AttributeError`, raise `TypeError` (with the message the
executor interpolates), raise any other exception (caught by the engine's
outer handler, same net effect), or return a result dict. -/
inductive ToolReply
  | raisedAttr
  | raisedType (msg : String)
  | raisedOther (msg : String)
  | returned (res : Params)
deriving DecidableEq, Repr

/-- The `output` payload of a step result: a planner-declared value for
reasoning steps, or a whole tool-result dict for tool calls. -/
inductive Outp
  | val (v : Val)
  | toolRet (res : Params)
deriving DecidableEq, Repr

/-- A step-result dict as the engine builds them.  A `none` optional field
is a key that the corresponding dict literal in `agent.py` does not set. -/
structure StepResult where
  step : Val
  description : String
  status : String
  action_type : String
  output : Option Outp := none
  reasoning : Option Val := none
  tool : Option String := none
  parameters : Option Params := none
  expected_output : Option Val := none
  error : Option String := none
  partial_success : Bool := false
  skipped_steps : Option (List (Option String)) := none
deriving DecidableEq, Repr

/-- Embedding of `SecAgent._execute_single_tool_step`: one attempt at a
tool-call step; every failure becomes `Except.error` with the message the
engine's `except Exception as e` would read.  `StepD` identifies a
'tool_parameters' key stored as `None` with an absent key; in the source the
former makes `tool_method(**None)` raise TypeError, which this very function
converts into an `'Invalid parameters for ...'` failure — an ordinary step
failure that the oracle case `ToolReply.raisedType` covers, so no behavior
of the source escapes the embedding here. -/
def execSingleToolStep (registry : List String) (reply : ToolReply)
    (stepd : StepD) (stepNumV : Val) (description : String) :
    Except String StepResult :=
  let toolParams := stepd.tool_parameters.getD []
  match stepd.tool with
  | none => .error "Invalid tool 'None'"
  | some toolName =>
      if toolName = "" ∨ toolName ∉ registry then
        .error ("Invalid tool '" ++ toolName ++ "'")
      else
        match reply with
        | .raisedAttr => .error ("Method '" ++ toolName ++ "' not found on tool")
        | .raisedType msg =>
            .error ("Invalid parameters for " ++ toolName ++ ": " ++ msg)
        | .raisedOther msg => .error msg
        | .returned res =>
            if ¬ ((pget res "success").map truthy).getD false then
              .error ((pget res "error").map pyStr |>.getD "Unknown error")
            else
              .ok { step := stepNumV, description := description,
                    status := "success", action_type := "tool_call",
                    tool := some toolName, parameters := some toolParams,
                    output := some (.toolRet res),
                    expected_output := stepd.expected_output }

/-- The skip-note record `_handle_partial_success` appends when steps remain. -/
def skipNote (remainingSteps : List StepD) : StepResult :=
  { step := .str "skipped",
    description := "Skipped " ++ toString remainingSteps.length ++
      " remaining steps due to failure",
    status := "skipped", action_type := "note",
    skipped_steps := some (remainingSteps.map (·.description)) }

/-- Embedding of `SecAgent._handle_partial_success`: append one failed record
and, when steps remain, one skip note. -/
def handlePartialSuccess (completedSteps : List StepResult) (failedStep : StepD)
    (failedStepNumV : Val) (remainingSteps : List StepD) (error : String) :
    List StepResult :=
  let partialResult : StepResult :=
    { step := failedStepNumV,
      description := failedStep.description.getD "Failed step",
      status := "failed", action_type := "tool_call",
      tool := failedStep.tool, parameters := failedStep.tool_parameters,
      output := none, error := some error, partial_success := true }
  if remainingSteps.isEmpty then completedSteps ++ [partialResult]
  else completedSteps ++ [partialResult, skipNote remainingSteps]

/-- Instrumentation events: one per step attempt (`execEv`), per
`_try_predefined_fallback` call (`fbEv`) and per `_replan_with_llm` call
(`llmEv`), each carrying the per-step attempt counter and the run-wide
`total_replannings` counter at the moment of the call. -/
inductive Ev
  | execEv (tool : Option String) (parameters : Params) (attempts total : Nat)
  | fbEv (attempts total : Nat)
  | llmEv (attempts total : Nat)
deriving DecidableEq, Repr

/-- Engine state threaded through a run: the accumulated step results, the
`total_replannings` counter, the indices of the tool and LLM oracles and
the instrumentation log. -/
structure EngSt where
  results : List StepResult := []
  total : Nat := 0
  toolN : Nat := 0
  llmN : Nat := 0
  log : List Ev := []
deriving DecidableEq, Repr

/-- Engine configuration: the registered tool names, the two budgets
(defaults as set in `SecAgent.__init__`), and the two external oracles. -/
structure Cfg where
  registry : List String
  maxReplanningAttempts : Nat := 2
  maxTotalReplannings : Nat := 5
  toolBeh : Nat → ToolReply
  llmBeh : Nat → ReplanResponse

/-- Result of the per-step retry loop: abort the run with a final trace, or
carry on with the next plan step. -/
inductive LoopOut
  | done (trace : List StepResult) (st : EngSt)
  | next (st : EngSt)
deriving DecidableEq, Repr

/-- The `while replanning_attempts <= self.max_replanning_attempts` loop of
`_execute_plan_with_replanning` for one tool-call step.  `fuel` is the
number of loop iterations the `while` condition still allows,
`maxReplanningAttempts + 1 - attempts`; at `fuel = 0` the `while` exits and
the plan loop moves on (unreachable from the engine's initial call). -/
def stepLoop (cfg : Cfg) (stepNumV : Val) (description : String)
    (remainingSteps : List StepD) :
    Nat → Nat → StepD → List AttemptRec → EngSt → LoopOut
  | 0, _, _, _, st => .next st
  | fuel + 1, attempts, currentStep, attempted, st =>
      let st1 : EngSt :=
        { st with
          toolN := st.toolN + 1,
          log := st.log ++
            [.execEv currentStep.tool (currentStep.tool_parameters.getD [])
              attempts st.total] }
      match execSingleToolStep cfg.registry (cfg.toolBeh st.toolN) currentStep
          stepNumV description with
      | .ok result => .next { st1 with results := st1.results ++ [result] }
      | .error errorMsg =>
          let attempted := attempted ++
            [{ tool := currentStep.tool,
               parameters := currentStep.tool_parameters, error := errorMsg }]
          if attempts ≥ cfg.maxReplanningAttempts then
            .done (handlePartialSuccess st1.results currentStep stepNumV
              remainingSteps errorMsg) st1
          else if st1.total ≥ cfg.maxTotalReplannings then
            .done (handlePartialSuccess st1.results currentStep stepNumV
              remainingSteps "Exceeded maximum replanning attempts for this query") st1
          else if classifyError errorMsg = .unrecoverable then
            .done (handlePartialSuccess st1.results currentStep stepNumV
              remainingSteps errorMsg) st1
          else
            let st2 : EngSt :=
              { st1 with log := st1.log ++ [.fbEv attempts st1.total] }
            match tryPredefinedFallback currentStep errorMsg attempted with
            | some fallbackStep =>
                stepLoop cfg stepNumV description remainingSteps fuel
                  (attempts + 1) fallbackStep attempted
                  { st2 with total := st2.total + 1 }
            | none =>
                let st3 : EngSt := { st2 with
                  log := st2.log ++ [.llmEv attempts st2.total],
                  llmN := st2.llmN + 1 }
                match llmReplanOutcome (cfg.llmBeh st2.llmN) with
                | some replannedStep =>
                    stepLoop cfg stepNumV description remainingSteps fuel
                      (attempts + 1) replannedStep attempted
                      { st3 with total := st3.total + 1 }
                | none =>
                    .done (handlePartialSuccess st3.results currentStep stepNumV
                      remainingSteps "Could not find alternative approach") st3

/-- The result record for a reasoning step. -/
def reasoningStepResult (step : StepD) : StepResult :=
  { step := numVal step, description := step.description.getD "Unknown step",
    status := "completed", action_type := "reasoning",
    output := step.expected_output.map .val, reasoning := step.reasoning }

/-- The result record for a synthesis step. -/
def synthesisStepResult (step : StepD) : StepResult :=
  { step := numVal step, description := step.description.getD "Unknown step",
    status := "pending", action_type := "synthesis",
    expected_output := step.expected_output }

/-- Embedding of the plan loop of `SecAgent._execute_plan_with_replanning`:
the `if action_type == 'reasoning' / 'synthesis' / 'tool_call' / else`
chain of the source. -/
def runPlanAux (cfg : Cfg) : List StepD → EngSt → EngSt
  | [], st => st
  | step :: rest, st =>
      if step.action_type = some "reasoning" then
        runPlanAux cfg rest
          { st with results := st.results ++ [reasoningStepResult step] }
      else if step.action_type = some "synthesis" then
        runPlanAux cfg rest
          { st with results := st.results ++ [synthesisStepResult step] }
      else if step.action_type = some "tool_call" then
        match stepLoop cfg (numVal step) (step.description.getD "Unknown step")
            rest (cfg.maxReplanningAttempts + 1) 0 step [] st with
        | .done trace st' => { st' with results := trace }
        | .next st' => runPlanAux cfg rest st'
      else
        { st with
          results :=
            handlePartialSuccess st.results step (numVal step) rest
              ("Step " ++ pyStr (numVal step) ++
                " failed: Unknown action_type '" ++
                (match step.action_type with | some a => a | none => "None") ++
                "'") }

/-- Embedding of `SecAgent._execute_plan_with_replanning` from a fresh state. -/
def runPlan (cfg : Cfg) (plan : List StepD) : EngSt :=
  runPlanAux cfg plan {}

/-!
Theorems.  Claim C6: rate-limit classification.
-/

/-- Counterexample to C6 as stated: the message below contains
`"rate limit"` yet `_classify_error` returns UNRECOVERABLE, because the
unrecoverable patterns are matched first and the message also contains
`"invalid cik format"`. -/
theorem c6_counterexample :
    containsS (lowerStr "Rate limit hit: Invalid CIK format") "rate limit" = true ∧
    classifyError "Rate limit hit: Invalid CIK format" =
      ErrorType.unrecoverable := by
  exact ⟨by decide, by decide⟩

/-- Claim C6 (amended): every error message that contains the substring
`"rate limit"` (case-insensitively) and contains none of the unrecoverable
patterns is classified RATE_LIMIT, never UNRECOVERABLE. -/
theorem c6_amended_rate_limit_classification (msg : String)
    (hrl : containsS (lowerStr msg) "rate limit" = true)
    (hun : ∀ p ∈ unrecoverablePatterns, containsS (lowerStr msg) p = false) :
    classifyError msg = ErrorType.rateLimit := by
  have hany : unrecoverablePatterns.any
      (fun p => containsS (lowerStr msg) p) = false := by
    apply List.any_eq_false.mpr
    intro p hp
    simp [hun p hp]
  have hrate : rateLimitPatterns.any
      (fun p => containsS (lowerStr msg) p) = true := by
    apply List.any_eq_true.mpr
    exact ⟨"rate limit", by decide, hrl⟩
  simp [classifyError, hany, hrate]

/-- Witness for the amended C6 at a concrete message. -/
theorem c6_amended_rate_limit_classification_witness :
    containsS (lowerStr "Error: rate limit reached") "rate limit" = true ∧
    classifyError "Error: rate limit reached" = ErrorType.rateLimit :=
  ⟨by decide,
   c6_amended_rate_limit_classification "Error: rate limit reached" (by decide)
     (by decide)⟩

/-!
Claim C3: the scenario-B fallback chain for
`get_recent_filings(ticker=XYZ, form_type=10-K, year=2023)`.
-/

/-- The scenario-B step. -/
def c3Step0 : StepD :=
  { step := some 2, action_type := some "tool_call",
    description := some "Get recent filings",
    tool := some "get_recent_filings",
    tool_parameters := some [("ticker", .str "XYZ"), ("form_type", .str "10-K"),
      ("year", .int 2023)] }

/-- A first failure message that the dispatcher of
`_try_predefined_fallback` recognizes as filing-not-found. -/
def c3Err1 : String := "10-K filing not found for XYZ in 2023"

/-- Attempt history after the first failure. -/
def c3Att1 : List AttemptRec :=
  [{ tool := some "get_recent_filings", parameters := c3Step0.tool_parameters,
     error := c3Err1 }]

/-- The first substituted step: form type swapped to 10-Q, year unchanged. -/
def c3Step1 : StepD :=
  { c3Step0 with
    tool_parameters := some [("ticker", .str "XYZ"), ("form_type", .str "10-Q"),
      ("year", .int 2023)] }

/-- A failure message of the substituted step, again recognized as
filing-not-found. -/
def c3Err2 : String := "10-Q filing not found for XYZ in 2023"

/-- Attempt history after the second failure. -/
def c3Att2 : List AttemptRec :=
  c3Att1 ++ [{ tool := some "get_recent_filings",
               parameters := c3Step1.tool_parameters, error := c3Err2 }]

/-- Counterexample to C3 as stated, in both places where it diverges from
the code.  First: for the exact message `"No 10-K filings found for XYZ in
2023"` the fallback engine produces no step at all (the message contains
neither `"not found"` nor the literal `"no filings found"`, so the
dispatcher never reaches the filing-not-found strategy).  Second: for a
message the dispatcher does recognize, the second fallback step keeps
`form_type = "10-Q"` — it is not reverted to 10-K — because the year
decrement is applied to the already-substituted step. -/
theorem c3_counterexample :
    tryPredefinedFallback c3Step0 "No 10-K filings found for XYZ in 2023"
      c3Att1 = none ∧
    (tryPredefinedFallback c3Step1 c3Err2 c3Att2).map
      (fun s => pget (s.tool_parameters.getD []) "form_type") =
      some (some (.str "10-Q")) := by
  exact ⟨by decide, by decide⟩

/-- Claim C3 (amended): for failure messages that the dispatcher recognizes
as filing-not-found (containing `"not found"` and a filing term — the
exact scenario-B message is recognized by neither pattern and yields no
fallback), the first fallback swaps `form_type` to 10-Q keeping year 2023;
when that substituted step fails the same way, the next fallback has
`year = 2022` with `form_type` remaining 10-Q, not reverted to 10-K. -/
theorem c3_amended_fallback_chain :
    tryPredefinedFallback c3Step0 c3Err1 c3Att1 = some c3Step1 ∧
    tryPredefinedFallback c3Step1 c3Err2 c3Att2 =
      some { c3Step1 with
        tool_parameters := some [("ticker", .str "XYZ"),
          ("form_type", .str "10-Q"), ("year", .int 2022)] } := by
  exact ⟨by decide, by decide⟩

/-!
Claim C5: fallback substitutions never repeat an attempted (tool,
parameters) pair, and the filing-not-found strategy returns no fallback
once both of its dimensions are exhausted.
-/

/-- Extensional equality of two parameter dicts: Python dict equality as
observed through every lookup. -/
def dictEq (p q : Params) : Prop := ∀ k, pget p k = pget q k

/-- Python equality of optional parameter dicts (an absent dict equals only
an absent dict). -/
def optDictEq : Option Params → Option Params → Prop
  | none, none => True
  | some p, some q => dictEq p q
  | _, _ => False

/-- The (tool, parameter-map) pair of a candidate step is identical to the
(tool, parameters) pair of an attempt record. -/
def pairIdentical (t1 : Option String) (p1 : Option Params)
    (t2 : Option String) (p2 : Option Params) : Prop :=
  t1 = t2 ∧ optDictEq p1 p2

/-- Lookup of the key just written by `pset`. -/
theorem pget_pset_self (p : Params) (k : String) (v : Val) :
    pget (pset p k v) k = some v := by
  induction p with
  | nil => simp [pset, pget]
  | cons hd tl ih =>
      obtain ⟨k', v'⟩ := hd
      by_cases h : k' = k
      · simp [pset, pget, h]
      · simp [pset, pget, h, ih]

/-- The filing-not-found fallback never regenerates an attempted pair: any
step it returns differs, as a (tool, parameters) pair, from every record of
the attempt history. -/
theorem fallbackFiling_no_repeat (failedStep : StepD)
    (attempted : List AttemptRec) (s : StepD)
    (h : fallbackFilingNotFound failedStep attempted = some s) :
    ∀ a ∈ attempted,
      ¬ pairIdentical s.tool s.tool_parameters a.tool a.parameters := by
  intro a ha hpair
  obtain ⟨htool, hparams⟩ := hpair
  unfold fallbackFilingNotFound at h
  dsimp only at h
  split at h
  case _ s' heq =>
    -- form-swap branch produced s' and h : some s' = some s
    split at heq <;> try exact Option.noConfusion heq
    split at heq <;> try exact Option.noConfusion heq
    split at heq <;> try exact Option.noConfusion heq
    rename_i hnot
    injection heq with heq'
    injection h with h'
    subst h'
    subst heq'
    -- s is the modified copy; its parameters hold the alternative form
    apply hnot
    apply List.any_eq_true.mpr
    refine ⟨a, ha, ?_⟩
    simp only [decide_eq_true_eq]
    obtain ⟨q, hq⟩ : ∃ q, a.parameters = some q := by
      cases haq : a.parameters with
      | none => simp [haq, optDictEq] at hparams
      | some q => exact ⟨q, rfl⟩
    rw [hq] at hparams
    simp only [optDictEq] at hparams
    have h2 := hparams "form_type"
    rw [pget_pset_self] at h2
    simp [attParams, hq, ← h2]
  case _ heq =>
    -- year-decrement branch
    split at h <;> try exact Option.noConfusion h
    split at h <;> try exact Option.noConfusion h
    split at h <;> try exact Option.noConfusion h
    rename_i hcond
    obtain ⟨hnot, hge⟩ := hcond
    injection h with h'
    subst h'
    apply hnot
    apply List.any_eq_true.mpr
    refine ⟨a, ha, ?_⟩
    simp only [decide_eq_true_eq]
    obtain ⟨q, hq⟩ : ∃ q, a.parameters = some q := by
      cases haq : a.parameters with
      | none => simp [haq, optDictEq] at hparams
      | some q => exact ⟨q, rfl⟩
    rw [hq] at hparams
    simp only [optDictEq] at hparams
    have h2 := hparams "year"
    rw [pget_pset_self] at h2
    simp [attParams, hq, ← h2]

/-- Any step the suffix loop returns strips some suffix: it is the failed
step with `identifier` rebound to a cleaned string that no attempt record
carries. -/
theorem suffixLoop_no_repeat (failedStep : StepD) (originalParams : Params)
    (identifier : String) (attempted : List AttemptRec) (sufs : List String)
    (s : StepD)
    (h : suffixLoopCompany failedStep originalParams identifier attempted sufs =
      some s) :
    ∃ clean : String,
      s = { failedStep with
        tool_parameters := some (pset originalParams "identifier" (.str clean)) } ∧
      (attempted.any fun a =>
        decide (pget (attParams a) "identifier" = some (.str clean))) = false := by
  induction sufs with
  | nil => exact Option.noConfusion h
  | cons suffix rest ih =>
      unfold suffixLoopCompany at h
      dsimp only at h
      split at h
      · split at h
        · rename_i hnot
          injection h with h'
          refine ⟨(identifier.dropRight suffix.length).trim, h'.symm, ?_⟩
          simpa using hnot
        · exact ih h
      · exact ih h

/-- The company-not-found fallback never regenerates an attempted pair. -/
theorem fallbackCompany_no_repeat (failedStep : StepD)
    (attempted : List AttemptRec) (s : StepD)
    (h : fallbackCompanyNotFound failedStep attempted = some s) :
    ∀ a ∈ attempted,
      ¬ pairIdentical s.tool s.tool_parameters a.tool a.parameters := by
  intro a ha hpair
  obtain ⟨htool, hparams⟩ := hpair
  unfold fallbackCompanyNotFound at h
  dsimp only at h
  split at h
  · exact Option.noConfusion h
  case _ identifierV hid =>
    split at h
    · exact Option.noConfusion h
    rename_i htruthy
    split at h
    · -- search_companies substitution
      rename_i hnotsearch
      injection h with h'
      subst h'
      apply hnotsearch
      apply List.any_eq_true.mpr
      refine ⟨a, ha, ?_⟩
      simp only [decide_eq_true_eq]
      exact htool.symm
    · -- suffix stripping
      split at h
      case _ identifier =>
        obtain ⟨clean, hs, hnot⟩ := suffixLoop_no_repeat (h := h)
        subst hs
        have hany : (attempted.any fun a =>
            decide (pget (attParams a) "identifier" = some (.str clean))) = true := by
          apply List.any_eq_true.mpr
          refine ⟨a, ha, ?_⟩
          simp only [decide_eq_true_eq]
          obtain ⟨q, hq⟩ : ∃ q, a.parameters = some q := by
            cases haq : a.parameters with
            | none => simp [haq, optDictEq] at hparams
            | some q => exact ⟨q, rfl⟩
          rw [hq] at hparams
          simp only [optDictEq] at hparams
          have h2 := hparams "identifier"
          rw [pget_pset_self] at h2
          simp [attParams, hq, ← h2]
        exact absurd hany (by simp [hnot])
      all_goals exact Option.noConfusion h

/-- The data-not-found fallback never regenerates an attempted pair. -/
theorem fallbackData_no_repeat (failedStep : StepD)
    (attempted : List AttemptRec) (s : StepD)
    (h : fallbackDataNotFound failedStep attempted = some s) :
    ∀ a ∈ attempted,
      ¬ pairIdentical s.tool s.tool_parameters a.tool a.parameters := by
  intro a ha hpair
  obtain ⟨htool, hparams⟩ := hpair
  unfold fallbackDataNotFound at h
  dsimp only at h
  split at h
  · rename_i hnot
    split at h <;> try exact Option.noConfusion h
    split at h
    · injection h with h'
      subst h'
      apply hnot
      apply List.any_eq_true.mpr
      refine ⟨a, ha, ?_⟩
      simp only [decide_eq_true_eq]
      exact htool.symm
    · exact Option.noConfusion h
  · exact Option.noConfusion h

/-- No substituted step the predefined-fallback dispatcher returns is
identical, as a (tool, parameters) pair, to a pair recorded in the attempt
history. -/
theorem tryPredefinedFallback_no_repeat (failedStep : StepD)
    (errorMessage : String) (attempted : List AttemptRec) (s : StepD)
    (h : tryPredefinedFallback failedStep errorMessage attempted = some s) :
    ∀ a ∈ attempted,
      ¬ pairIdentical s.tool s.tool_parameters a.tool a.parameters := by
  unfold tryPredefinedFallback at h
  dsimp only at h
  split at h
  · split at h
    · exact fallbackFiling_no_repeat failedStep attempted s h
    · split at h
      · exact fallbackCompany_no_repeat failedStep attempted s h
      · exact fallbackData_no_repeat failedStep attempted s h
  · exact Option.noConfusion h

/-- The form-swap dimension of the filing-not-found strategy is exhausted:
whenever the failed step carries a swappable form type, the alternative
form is already recorded in the attempt history. -/
def filingFormExhausted (failedStep : StepD) (attempted : List AttemptRec) : Bool :=
  match pget (failedStep.tool_parameters.getD []) "form_type" with
  | some (.str formType) =>
      match alternativeForms formType with
      | some altForm =>
          attempted.any fun a =>
            decide (pget (attParams a) "form_type" = some (.str altForm))
      | none => true
  | _ => true

/-- The year-decrement dimension of the filing-not-found strategy is
exhausted: whenever the failed step carries a usable year, the decremented
year is already attempted or falls below 2010. -/
def filingYearExhausted (failedStep : StepD) (attempted : List AttemptRec) : Bool :=
  match pget (failedStep.tool_parameters.getD []) "year" with
  | some (.int year) =>
      if year ≠ 0 then
        (attempted.any fun a =>
          decide (pget (attParams a) "year" = some (.int (year + (-1))))) ||
        decide (year + (-1) < 2010)
      else true
  | _ => true

/-- Once both dimensions of the filing-not-found strategy are exhausted, it
returns no fallback. -/
theorem fallbackFiling_exhausted (failedStep : StepD)
    (attempted : List AttemptRec)
    (hform : filingFormExhausted failedStep attempted = true)
    (hyear : filingYearExhausted failedStep attempted = true) :
    fallbackFilingNotFound failedStep attempted = none := by
  unfold filingFormExhausted at hform
  unfold filingYearExhausted at hyear
  unfold fallbackFilingNotFound
  dsimp only
  split
  case _ s' heq =>
    exfalso
    split at heq <;> try exact Option.noConfusion heq
    rename_i formType hpgetEq
    split at heq <;> try exact Option.noConfusion heq
    rename_i altForm haltEq
    rw [hpgetEq] at hform
    dsimp only at hform
    rw [haltEq] at hform
    dsimp only at hform
    rw [if_pos hform] at heq
    exact Option.noConfusion heq
  case _ heq =>
    split
    case _ year hpgetEq =>
      rw [hpgetEq] at hyear
      dsimp only at hyear
      split
      case _ hyz =>
        rw [if_pos hyz] at hyear
        split
        case _ hcond =>
          exfalso
          obtain ⟨hnot, hge⟩ := hcond
          simp only [Bool.or_eq_true] at hyear
          rcases hyear with hl | hr
          · exact hnot hl
          · have := of_decide_eq_true hr
            omega
        · rfl
      · rfl
    all_goals rfl

/-- Claim C5: whenever the predefined-fallback engine returns a substituted
step, that step's (tool, parameter-map) pair is not identical to any
(tool, parameters) pair already recorded in the attempt history; and for
the filing-not-found strategy, once the form swap and the viable year
decrement (years stop below 2010) have been tried, it returns no
fallback. -/
theorem c5_fallbacks_make_progress :
    (∀ (failedStep : StepD) (errorMessage : String)
        (attempted : List AttemptRec) (s : StepD),
      tryPredefinedFallback failedStep errorMessage attempted = some s →
      ∀ a ∈ attempted,
        ¬ pairIdentical s.tool s.tool_parameters a.tool a.parameters) ∧
    (∀ (failedStep : StepD) (attempted : List AttemptRec),
      filingFormExhausted failedStep attempted = true →
      filingYearExhausted failedStep attempted = true →
      fallbackFilingNotFound failedStep attempted = none) :=
  ⟨tryPredefinedFallback_no_repeat, fallbackFiling_exhausted⟩

/-!
Claim C7: replanner failure handling.
-/

/-- Every collaborator response that is empty, unparseable, or whose parsed
object lacks the 'tool' key or the 'tool_parameters' key makes
`_replan_with_llm` return no step instead of raising. -/
theorem replanWithLLM_missing_key_none (r : ReplanParse)
    (hr : r = .empty ∨ r = .parseFailure ∨
      ∃ obj, r = .parsedObj obj ∧
        (pget obj "tool" = none ∨ pget obj "tool_parameters" = none)) :
    replanWithLLM r = none := by
  rcases hr with h | h | ⟨obj, hobj, hmiss⟩
  · subst h; rfl
  · subst h; rfl
  · subst hobj
    unfold replanWithLLM
    rcases hmiss with h | h <;> simp [h]

/-- A parsed object carrying both required keys passes the validation and is
returned unchanged — the check is key presence, so this includes objects
whose 'tool_parameters' (or 'tool') is stored as JSON null. -/
theorem replanWithLLM_keys_present (obj : Params)
    (h1 : (pget obj "tool").isSome = true)
    (h2 : (pget obj "tool_parameters").isSome = true) :
    replanWithLLM (.parsedObj obj) = some obj := by
  unfold replanWithLLM
  simp [h1, h2]

/-- When a step attempt fails recoverably with budget remaining, the
predefined fallback yields nothing and the replanner yields nothing, the
step loop aborts through `_handle_partial_success` with the error string
`"Could not find alternative approach"`. -/
theorem stepLoop_replanner_exhausted (cfg : Cfg) (stepNumV : Val)
    (description : String) (remainingSteps : List StepD) (fuel attempts : Nat)
    (currentStep : StepD) (attempted : List AttemptRec) (st : EngSt)
    (errorMsg : String)
    (hexec : execSingleToolStep cfg.registry (cfg.toolBeh st.toolN) currentStep
      stepNumV description = .error errorMsg)
    (hatt : attempts < cfg.maxReplanningAttempts)
    (htot : st.total < cfg.maxTotalReplannings)
    (hcls : classifyError errorMsg ≠ .unrecoverable)
    (hfb : tryPredefinedFallback currentStep errorMsg
      (attempted ++ [{ tool := currentStep.tool,
                       parameters := currentStep.tool_parameters,
                       error := errorMsg }]) = none)
    (hllm : llmReplanOutcome (cfg.llmBeh st.llmN) = none) :
    ∃ st' : EngSt, stepLoop cfg stepNumV description remainingSteps (fuel + 1)
        attempts currentStep attempted st =
      .done (handlePartialSuccess st.results currentStep stepNumV remainingSteps
        "Could not find alternative approach") st' ∧ st'.results = st.results := by
  unfold stepLoop
  dsimp only
  rw [hexec]
  dsimp only
  rw [if_neg (by omega : ¬ attempts ≥ cfg.maxReplanningAttempts)]
  rw [if_neg (by omega : ¬ st.total ≥ cfg.maxTotalReplannings)]
  rw [if_neg hcls]
  rw [hfb]
  rw [hllm]
  exact ⟨_, rfl, rfl⟩

/-- Claim C7 (amended): every reasoning-collaborator response that is
empty, unparseable, or whose parsed object lacks the 'tool' key or the
'tool_parameters' key makes `_replan_with_llm` return no step rather than
raise; the validation tests key PRESENCE only, so an object carrying both
keys is returned as the replanned step even when a key is stored with JSON
null; and when the replanner yields nothing for a recoverable failure with
budget remaining and no predefined fallback, the engine aborts via the
partial-result path recording the error string
`"Could not find alternative approach"` (the code never writes
`"no alternative approach found"`). -/
theorem c7_replanner_failure_handling :
    (∀ r : ReplanParse,
      (r = .empty ∨ r = .parseFailure ∨
        ∃ obj, r = .parsedObj obj ∧
          (pget obj "tool" = none ∨ pget obj "tool_parameters" = none)) →
      replanWithLLM r = none) ∧
    (∀ obj : Params,
      (pget obj "tool").isSome = true →
      (pget obj "tool_parameters").isSome = true →
      replanWithLLM (.parsedObj obj) = some obj) ∧
    (∀ (cfg : Cfg) (stepNumV : Val) (description : String)
        (remainingSteps : List StepD) (fuel attempts : Nat)
        (currentStep : StepD) (attempted : List AttemptRec) (st : EngSt)
        (errorMsg : String),
      execSingleToolStep cfg.registry (cfg.toolBeh st.toolN) currentStep
        stepNumV description = .error errorMsg →
      attempts < cfg.maxReplanningAttempts →
      st.total < cfg.maxTotalReplannings →
      classifyError errorMsg ≠ .unrecoverable →
      tryPredefinedFallback currentStep errorMsg
        (attempted ++ [{ tool := currentStep.tool,
                         parameters := currentStep.tool_parameters,
                         error := errorMsg }]) = none →
      llmReplanOutcome (cfg.llmBeh st.llmN) = none →
      ∃ st' : EngSt, stepLoop cfg stepNumV description remainingSteps (fuel + 1)
          attempts currentStep attempted st =
        .done (handlePartialSuccess st.results currentStep stepNumV
          remainingSteps "Could not find alternative approach") st' ∧
        st'.results = st.results) :=
  ⟨replanWithLLM_missing_key_none, replanWithLLM_keys_present,
   stepLoop_replanner_exhausted⟩

/-- Configuration of the C7 counterexample: the single tool always reports
a failure that no fallback pattern recognizes, and the collaborator
returns an empty replanning response. -/
def c7Cfg : Cfg :=
  { registry := ["get_recent_filings"],
    toolBeh := fun _ =>
      .returned [("success", .bool false), ("error", .str "backend exploded")],
    llmBeh := fun _ => .empty }

/-- Single-step plan of the C7 counterexample. -/
def c7Plan : List StepD :=
  [{ step := some 1, action_type := some "tool_call",
     description := some "Fetch filings",
     tool := some "get_recent_filings",
     tool_parameters := some [("year", .int 2023)] }]

/-- The parsed response object of the C7 counterexample: the
'tool_parameters' key is present but stored as JSON null, so the object
carries no parameter map. -/
def c7NullObj : Params :=
  [("tool", .str "get_company_facts"), ("tool_parameters", .vnone)]

/-- Counterexample to C7 as stated, in both directions.  First: a parsed
response whose 'tool_parameters' is JSON null — it lacks the parameter
map, its stored value being null rather than a dict — passes the
key-presence validation of `_replan_with_llm` and IS returned as a step,
against the claim's `returns no step`.  Second: in a run where the
replanner yields nothing, the failed record carries the error string
`"Could not find alternative approach"`, not the string
`"no alternative approach found"` the claim names. -/
theorem c7_counterexample :
    replanWithLLM (.parsedObj c7NullObj) = some c7NullObj ∧
    pget c7NullObj "tool_parameters" = some .vnone ∧
    ((runPlan c7Cfg c7Plan).results.map (fun r => r.error)) =
      [some "Could not find alternative approach"] ∧
    some "Could not find alternative approach" ≠
      some "no alternative approach found" := by
  exact ⟨by decide, by decide, by decide, by decide⟩

/-!
Claim C9: fallback generation never mutates the failed step it is given.
To make this frame property observable, the two fallback builders are
re-embedded over an explicit store of parameter dicts: a step holds a
reference to its `tool_parameters` dict, `failed_step.copy()` is a value
copy sharing that reference (Python's shallow copy),
`original_params.copy()` allocates a fresh cell, and the item assignments
of the Python code write through the reference they are applied to.  The
pure embedding above is the special case this theorem justifies: since the
original's cell is never written, values suffice elsewhere. -/

/-- A store of parameter dicts; addresses are indices. -/
abbrev Store := List Params

/-- Read the dict at an address (an out-of-range address reads `{}`). -/
def storeGet (h : Store) (a : Nat) : Params := (h.get? a).getD []

/-- Overwrite the dict at an address. -/
def storeSet (h : Store) (a : Nat) (p : Params) : Store := h.set a p

/-- Allocate a fresh dict, as `dict.copy()` or a dict literal does. -/
def storeAlloc (h : Store) (p : Params) : Store × Nat := (h ++ [p], h.length)

/-- A step dict whose `tool_parameters` entry is a reference into the
store; `none` embeds an absent key. -/
structure StepR where
  step : Option Int := none
  action_type : Option String := none
  description : Option String := none
  tool : Option String := none
  paramsRef : Option Nat := none
  expected_output : Option Val := none
  reasoning : Option Val := none
deriving DecidableEq, Repr

/-- `step.get('tool_parameters', {})` under the store. -/
def paramsOfR (h : Store) (s : StepR) : Params :=
  match s.paramsRef with
  | some a => storeGet h a
  | none => []

/-- Store-level embedding of `_fallback_filing_not_found`. -/
def fallbackFilingNotFoundR (h : Store) (failedStep : StepR)
    (attempted : List AttemptRec) : Store × Option StepR :=
  let originalParams := paramsOfR h failedStep
  let tryFormR : Option (Store × StepR) :=
    match pget originalParams "form_type" with
    | some (.str formType) =>
        match alternativeForms formType with
        | some altForm =>
            if attempted.any (fun a =>
                decide (pget (attParams a) "form_type" = some (.str altForm))) then
              none
            else
              let alloc := storeAlloc h originalParams
              let h2 := storeSet alloc.1 alloc.2
                (pset originalParams "form_type" (.str altForm))
              some (h2, { failedStep with paramsRef := some alloc.2 })
        | none => none
    | _ => none
  match tryFormR with
  | some out => (out.1, some out.2)
  | none =>
      match pget originalParams "year" with
      | some (.int year) =>
          if year ≠ 0 then
            let newYear := year + (-1)
            if ¬ (attempted.any fun a =>
                decide (pget (attParams a) "year" = some (.int newYear))) ∧
                newYear ≥ 2010 then
              let alloc := storeAlloc h originalParams
              let h2 := storeSet alloc.1 alloc.2
                (pset originalParams "year" (.int newYear))
              (h2, some { failedStep with paramsRef := some alloc.2 })
            else (h, none)
          else (h, none)
      | _ => (h, none)

/-- Store-level embedding of the suffix loop of
`_fallback_company_not_found`. -/
def suffixLoopCompanyR (h : Store) (failedStep : StepR)
    (originalParams : Params) (identifier : String)
    (attempted : List AttemptRec) : List String → Store × Option StepR
  | [] => (h, none)
  | suffix :: rest =>
      if identifier.endsWith suffix then
        let cleanIdentifier := (identifier.dropRight suffix.length).trim
        if ¬ (attempted.any fun a =>
            decide (pget (attParams a) "identifier" =
              some (.str cleanIdentifier))) then
          let alloc := storeAlloc h originalParams
          (storeSet alloc.1 alloc.2
            (pset originalParams "identifier" (.str cleanIdentifier)),
           some { failedStep with paramsRef := some alloc.2 })
        else
          suffixLoopCompanyR h failedStep originalParams identifier attempted rest
      else suffixLoopCompanyR h failedStep originalParams identifier attempted rest

/-- Store-level embedding of `_fallback_company_not_found`. -/
def fallbackCompanyNotFoundR (h : Store) (failedStep : StepR)
    (attempted : List AttemptRec) : Store × Option StepR :=
  let originalParams := paramsOfR h failedStep
  match companyIdentifier originalParams with
  | none => (h, none)
  | some identifierV =>
      if ¬ truthy identifierV then (h, none)
      else if ¬ (attempted.any fun a =>
          decide (a.tool = some "search_companies")) then
        let alloc := storeAlloc h [("query", identifierV), ("limit", .int 5)]
        (alloc.1,
         some { step := failedStep.step,
                description := some ("Search for company: " ++ pyStr identifierV),
                action_type := some "tool_call",
                tool := some "search_companies",
                paramsRef := some alloc.2,
                expected_output :=
                  some (.str ("Company search results for " ++ pyStr identifierV)) })
      else
        match identifierV with
        | .str identifier =>
            suffixLoopCompanyR h failedStep originalParams identifier attempted
              removeSuffixes
        | _ => (h, none)

/-- Writing the freshly allocated cell leaves every pre-existing cell of
the store unchanged. -/
theorem take_set_alloc (h : Store) (p q : Params) :
    ((h ++ [p]).set h.length q).take h.length = h := by
  induction h with
  | nil => rfl
  | cons x xs ih => simp [ih]

/-- The suffix loop leaves every pre-existing store cell unchanged. -/
theorem suffixLoopCompanyR_frame (h : Store) (failedStep : StepR)
    (originalParams : Params) (identifier : String)
    (attempted : List AttemptRec) :
    ∀ sufs : List String,
      (suffixLoopCompanyR h failedStep originalParams identifier attempted
        sufs).1.take h.length = h := by
  intro sufs
  induction sufs with
  | nil => simp [suffixLoopCompanyR]
  | cons suffix rest ih =>
      unfold suffixLoopCompanyR
      dsimp only
      split
      · split
        · exact take_set_alloc h originalParams _
        · exact ih
      · exact ih

/-- Claim C9: neither fallback builder mutates the failed step it is
given.  The returned store agrees with the input store on every
pre-existing cell — in particular on the cell the original step's
`tool_parameters` reference points to — and the original step value itself
is never rebound, so every field of the original step is unchanged. -/
theorem c9_fallbacks_do_not_mutate_input (h : Store) (failedStep : StepR)
    (attempted : List AttemptRec) :
    (fallbackFilingNotFoundR h failedStep attempted).1.take h.length = h ∧
    (fallbackCompanyNotFoundR h failedStep attempted).1.take h.length = h := by
  constructor
  · unfold fallbackFilingNotFoundR
    dsimp only
    split
    · -- form-swap branch: the returned store is an alloc-and-set
      rename_i out heq
      split at heq <;> try exact Option.noConfusion heq
      split at heq <;> try exact Option.noConfusion heq
      split at heq <;> try exact Option.noConfusion heq
      injection heq with heq'
      subst heq'
      exact take_set_alloc h _ _
    · -- year branch
      split
      · split
        · split
          · exact take_set_alloc h _ _
          · simp
        · simp
      all_goals simp
  · unfold fallbackCompanyNotFoundR
    dsimp only
    split
    · simp
    · split
      · simp
      · split
        · simp [storeAlloc, List.take_left]
        · split
          · exact suffixLoopCompanyR_frame h failedStep _ _ attempted removeSuffixes
          all_goals simp

/-!
Engine-level lemmas shared by the remaining claims.
-/

/-- Field contents of a successful single-step execution: step number and
description are the ones passed in (the engine passes the originally
planned step's), tool and parameters are the executed step's. -/
theorem execSingleToolStep_ok (registry : List String) (reply : ToolReply)
    (stepd : StepD) (stepNumV : Val) (description : String) (r : StepResult)
    (h : execSingleToolStep registry reply stepd stepNumV description = .ok r) :
    r.step = stepNumV ∧ r.description = description ∧ r.status = "success" ∧
    r.action_type = "tool_call" ∧ r.tool = stepd.tool ∧
    r.parameters = some (stepd.tool_parameters.getD []) := by
  unfold execSingleToolStep at h
  dsimp only at h
  cases htool : stepd.tool with
  | none => rw [htool] at h; exact Except.noConfusion h
  | some toolName =>
      rw [htool] at h
      dsimp only at h
      split at h <;> try exact Except.noConfusion h
      split at h <;> try exact Except.noConfusion h
      split at h <;> try exact Except.noConfusion h
      injection h with h'
      subst h'
      simp [htool]

/-- The result record the engine appends for a non-tool step. -/
def nonToolStepResult (step : StepD) : StepResult :=
  match step.action_type with
  | some "synthesis" => synthesisStepResult step
  | _ => reasoningStepResult step

/-- One reasoning step of the plan loop. -/
theorem runPlanAux_cons_reasoning (cfg : Cfg) (p : StepD) (rest : List StepD)
    (st : EngSt) (h : p.action_type = some "reasoning") :
    runPlanAux cfg (p :: rest) st =
      runPlanAux cfg rest
        { st with results := st.results ++ [reasoningStepResult p] } := by
  rw [runPlanAux, if_pos h]

/-- One synthesis step of the plan loop. -/
theorem runPlanAux_cons_synthesis (cfg : Cfg) (p : StepD) (rest : List StepD)
    (st : EngSt) (h : p.action_type = some "synthesis") :
    runPlanAux cfg (p :: rest) st =
      runPlanAux cfg rest
        { st with results := st.results ++ [synthesisStepResult p] } := by
  rw [runPlanAux, if_neg (by simp [h]), if_pos h]

/-- One tool-call step of the plan loop. -/
theorem runPlanAux_cons_toolcall (cfg : Cfg) (p : StepD) (rest : List StepD)
    (st : EngSt) (h : p.action_type = some "tool_call") :
    runPlanAux cfg (p :: rest) st =
      match stepLoop cfg (numVal p) (p.description.getD "Unknown step") rest
          (cfg.maxReplanningAttempts + 1) 0 p [] st with
      | .done trace st' => { st' with results := trace }
      | .next st' => runPlanAux cfg rest st' := by
  rw [runPlanAux, if_neg (by simp [h]), if_neg (by simp [h]), if_pos h]

/-- A prefix of reasoning/synthesis steps is processed by appending its
result records, touching neither the budgets nor the log. -/
theorem runPlanAux_nonTool_lead (cfg : Cfg) (pre : List StepD)
    (rest : List StepD) (st : EngSt)
    (hpre : ∀ p ∈ pre,
      p.action_type = some "reasoning" ∨ p.action_type = some "synthesis") :
    runPlanAux cfg (pre ++ rest) st =
      runPlanAux cfg rest
        { st with results := st.results ++ pre.map nonToolStepResult } := by
  induction pre generalizing st with
  | nil => simp
  | cons p ps ih =>
      have hps : ∀ q ∈ ps,
          q.action_type = some "reasoning" ∨ q.action_type = some "synthesis" :=
        fun q hq => hpre q (by simp [hq])
      rcases hpre p (by simp) with h | h
      · rw [List.cons_append, runPlanAux_cons_reasoning cfg p _ st h, ih _ hps]
        have hnt : nonToolStepResult p = reasoningStepResult p := by
          simp [nonToolStepResult, h]
        simp [hnt, List.append_assoc]
      · rw [List.cons_append, runPlanAux_cons_synthesis cfg p _ st h, ih _ hps]
        have hnt : nonToolStepResult p = synthesisStepResult p := by
          simp [nonToolStepResult, h]
        simp [hnt, List.append_assoc]

/-- A failed attempt classified UNRECOVERABLE, with budget remaining,
aborts the step loop at once: no fallback, no replanning, one failed
record via `_handle_partial_success`. -/
theorem stepLoop_unrecoverable (cfg : Cfg) (stepNumV : Val)
    (description : String) (remainingSteps : List StepD) (fuel attempts : Nat)
    (currentStep : StepD) (attempted : List AttemptRec) (st : EngSt)
    (errorMsg : String)
    (hexec : execSingleToolStep cfg.registry (cfg.toolBeh st.toolN) currentStep
      stepNumV description = .error errorMsg)
    (hatt : attempts < cfg.maxReplanningAttempts)
    (htot : st.total < cfg.maxTotalReplannings)
    (hcls : classifyError errorMsg = .unrecoverable) :
    stepLoop cfg stepNumV description remainingSteps (fuel + 1) attempts
      currentStep attempted st =
    .done (handlePartialSuccess st.results currentStep stepNumV remainingSteps
        errorMsg)
      { st with toolN := st.toolN + 1,
                log := st.log ++ [.execEv currentStep.tool
                  (currentStep.tool_parameters.getD []) attempts st.total] } := by
  unfold stepLoop
  dsimp only
  rw [hexec]
  dsimp only
  rw [if_neg (by omega : ¬ attempts ≥ cfg.maxReplanningAttempts)]
  rw [if_neg (by omega : ¬ st.total ≥ cfg.maxTotalReplannings)]
  rw [if_pos hcls]

/-- Plan-level version: a tool-call step at the head of the remaining plan
whose attempt fails with an UNRECOVERABLE message ends the run with the
partial-result trace and exactly one further log event. -/
theorem runPlanAux_toolcall_unrecoverable (cfg : Cfg) (s : StepD)
    (post : List StepD) (st : EngSt) (e : String)
    (hstep : s.action_type = some "tool_call")
    (hexec : execSingleToolStep cfg.registry (cfg.toolBeh st.toolN) s (numVal s)
      (s.description.getD "Unknown step") = .error e)
    (hbud1 : 1 ≤ cfg.maxReplanningAttempts)
    (htot : st.total < cfg.maxTotalReplannings)
    (hcls : classifyError e = .unrecoverable) :
    runPlanAux cfg (s :: post) st =
      { st with
        results := handlePartialSuccess st.results s (numVal s) post e,
        toolN := st.toolN + 1,
        log := st.log ++
          [.execEv s.tool (s.tool_parameters.getD []) 0 st.total] } := by
  rw [runPlanAux_cons_toolcall cfg s post st hstep]
  rw [show cfg.maxReplanningAttempts + 1 =
    (cfg.maxReplanningAttempts - 1) + 1 + 1 from by omega]
  rw [stepLoop_unrecoverable cfg (numVal s) (s.description.getD "Unknown step")
    post (cfg.maxReplanningAttempts - 1 + 1) 0 s [] st e hexec
    (by omega) htot hcls]

/-- Claim C4: a tool-call step whose first attempt fails with a message
containing "Invalid CIK format" (case-insensitively) is classified
UNRECOVERABLE and the run aborts after exactly one execution of that step:
the log shows a single execution event and no fallback or replanning
event, and the trace is the prior results plus the failed record (and the
skip note when steps remain). -/
theorem c4_invalid_cik_aborts (cfg : Cfg) (pre : List StepD) (s : StepD)
    (post : List StepD) (e : String)
    (hpre : ∀ p ∈ pre,
      p.action_type = some "reasoning" ∨ p.action_type = some "synthesis")
    (hstep : s.action_type = some "tool_call")
    (hbud1 : 1 ≤ cfg.maxReplanningAttempts)
    (hbud2 : 1 ≤ cfg.maxTotalReplannings)
    (hexec : execSingleToolStep cfg.registry (cfg.toolBeh 0) s (numVal s)
      (s.description.getD "Unknown step") = .error e)
    (hcik : containsS (lowerStr e) "invalid cik format" = true) :
    classifyError e = ErrorType.unrecoverable ∧
    (runPlan cfg (pre ++ s :: post)).results =
      handlePartialSuccess (pre.map nonToolStepResult) s (numVal s) post e ∧
    (runPlan cfg (pre ++ s :: post)).log =
      [.execEv s.tool (s.tool_parameters.getD []) 0 0] := by
  have hcls : classifyError e = ErrorType.unrecoverable := by
    unfold classifyError
    have hany : unrecoverablePatterns.any
        (fun p => containsS (lowerStr e) p) = true :=
      List.any_eq_true.mpr ⟨"invalid cik format", by decide, hcik⟩
    simp [hany]
  refine ⟨hcls, ?_⟩
  unfold runPlan
  rw [runPlanAux_nonTool_lead cfg pre (s :: post) _ hpre]
  rw [runPlanAux_toolcall_unrecoverable cfg s post _ e hstep hexec hbud1
    (Nat.lt_of_lt_of_le Nat.zero_lt_one hbud2) hcls]
  exact ⟨rfl, rfl⟩

/-- Configuration of the C4 witness: the registered tool reports an
invalid-CIK failure. -/
def c4Cfg : Cfg :=
  { registry := ["get_company_info"],
    toolBeh := fun _ =>
      .returned [("success", .bool false),
                 ("error", .str "Invalid CIK format: 99Z")],
    llmBeh := fun _ => .empty }

/-- Reasoning step preceding the failing tool call in the C4 witness. -/
def c4Pre : List StepD :=
  [{ step := some 1, action_type := some "reasoning",
     description := some "Resolve company" }]

/-- The failing tool-call step of the C4 witness. -/
def c4Step : StepD :=
  { step := some 2, action_type := some "tool_call",
    description := some "Lookup company", tool := some "get_company_info",
    tool_parameters := some [("cik", .str "99Z")] }

/-- Steps after the failing one in the C4 witness. -/
def c4Post : List StepD :=
  [{ step := some 3, action_type := some "synthesis",
     description := some "Summarize" }]

/-- Witness for C4 at a concrete run. -/
theorem c4_invalid_cik_aborts_witness :
    execSingleToolStep c4Cfg.registry (c4Cfg.toolBeh 0) c4Step (numVal c4Step)
        (c4Step.description.getD "Unknown step") =
      .error "Invalid CIK format: 99Z" ∧
    (classifyError "Invalid CIK format: 99Z" = ErrorType.unrecoverable ∧
     (runPlan c4Cfg (c4Pre ++ c4Step :: c4Post)).results =
       handlePartialSuccess (c4Pre.map nonToolStepResult) c4Step
         (numVal c4Step) c4Post "Invalid CIK format: 99Z" ∧
     (runPlan c4Cfg (c4Pre ++ c4Step :: c4Post)).log =
       [.execEv c4Step.tool (c4Step.tool_parameters.getD []) 0 0]) :=
  ⟨rfl,
   c4_invalid_cik_aborts c4Cfg c4Pre c4Step c4Post "Invalid CIK format: 99Z"
     (by decide) (by decide) (by decide) (by decide) rfl (by decide)⟩

/-- Claim C10: every success result the retry loop accepts carries the
originally planned step's number and description — the loop's fixed
arguments, which the engine instantiates from the plan step — while its
tool and parameters fields are those of the substitute step whose
execution actually succeeded. -/
theorem c10_success_keeps_planned_identity (cfg : Cfg) (stepNumV : Val)
    (description : String) (remainingSteps : List StepD) (fuel : Nat) :
    ∀ (attempts : Nat) (currentStep : StepD) (attempted : List AttemptRec)
      (st st' : EngSt),
      stepLoop cfg stepNumV description remainingSteps fuel attempts
        currentStep attempted st = .next st' →
      st'.results ≠ st.results →
      ∃ (executedStep : StepD) (n : Nat) (r : StepResult),
        st'.results = st.results ++ [r] ∧
        execSingleToolStep cfg.registry (cfg.toolBeh n) executedStep stepNumV
          description = .ok r ∧
        r.step = stepNumV ∧ r.description = description ∧
        r.status = "success" ∧ r.tool = executedStep.tool ∧
        r.parameters = some (executedStep.tool_parameters.getD []) := by
  induction fuel with
  | zero =>
      intro attempts currentStep attempted st st' h hne
      unfold stepLoop at h
      injection h with h'
      subst h'
      exact absurd rfl hne
  | succ fuel ih =>
      intro attempts currentStep attempted st st' h hne
      unfold stepLoop at h
      dsimp only at h
      cases hex : execSingleToolStep cfg.registry (cfg.toolBeh st.toolN)
          currentStep stepNumV description with
      | ok r =>
          rw [hex] at h
          dsimp only at h
          injection h with h'
          subst h'
          obtain ⟨h1, h2, h3, h4, h5, h6⟩ :=
            execSingleToolStep_ok _ _ _ _ _ _ hex
          exact ⟨currentStep, st.toolN, r, by simp, hex, h1, h2, h3, h5, h6⟩
      | error e =>
          rw [hex] at h
          dsimp only at h
          split at h <;> try exact LoopOut.noConfusion h
          split at h <;> try exact LoopOut.noConfusion h
          split at h <;> try exact LoopOut.noConfusion h
          split at h
          · have hr := ih _ _ _ _ _ h (fun hh => hne hh)
            exact hr
          · split at h
            · have hr := ih _ _ _ _ _ h (fun hh => hne hh)
              exact hr
            · exact LoopOut.noConfusion h

/-- Configuration of the C10 witness: the first call fails with a
filing-not-found message, every later call succeeds. -/
def c10Cfg : Cfg :=
  { registry := ["get_recent_filings"],
    toolBeh := fun n =>
      if n = 0 then
        .returned [("success", .bool false),
                   ("error", .str "10-K filing not found for XYZ in 2023")]
      else .returned [("success", .bool true), ("data", .str "ok")],
    llmBeh := fun _ => .empty }

/-- The originally planned step of the C10 witness. -/
def c10Step : StepD :=
  { step := some 7, action_type := some "tool_call",
    description := some "Planned step",
    tool := some "get_recent_filings",
    tool_parameters := some [("form_type", .str "10-K"), ("year", .int 2023)] }

/-- The state the C10 witness run ends in: the success record carries
step 7 and the planned description but the substituted 10-Q parameters. -/
def c10St : EngSt :=
  { results := [{ step := .int 7, description := "Planned step",
                  status := "success", action_type := "tool_call",
                  output := some (.toolRet [("success", .bool true),
                                            ("data", .str "ok")]),
                  tool := some "get_recent_filings",
                  parameters := some [("form_type", .str "10-Q"),
                                      ("year", .int 2023)] }],
    total := 1, toolN := 2, llmN := 0,
    log := [.execEv (some "get_recent_filings")
              [("form_type", .str "10-K"), ("year", .int 2023)] 0 0,
            .fbEv 0 0,
            .execEv (some "get_recent_filings")
              [("form_type", .str "10-Q"), ("year", .int 2023)] 1 1] }

/-- Witness for C10 at a concrete run in which the fallback attempt is the
one that succeeds. -/
theorem c10_success_keeps_planned_identity_witness :
    stepLoop c10Cfg (.int 7) "Planned step" [] 3 0 c10Step [] {} =
      .next c10St ∧
    c10St.results ≠ ({} : EngSt).results ∧
    (∃ (executedStep : StepD) (n : Nat) (r : StepResult),
      c10St.results = ({} : EngSt).results ++ [r] ∧
      execSingleToolStep c10Cfg.registry (c10Cfg.toolBeh n) executedStep
        (.int 7) "Planned step" = .ok r ∧
      r.step = .int 7 ∧ r.description = "Planned step" ∧
      r.status = "success" ∧ r.tool = executedStep.tool ∧
      r.parameters = some (executedStep.tool_parameters.getD [])) :=
  ⟨by decide, by decide,
   c10_success_keeps_planned_identity c10Cfg (.int 7) "Planned step" [] 3 0
     c10Step [] {} c10St (by decide) (by decide)⟩

/-!
Trace shape: claims C1 and C8.
-/

/-- Statuses the engine records outside the partial-result path. -/
def cleanStatus (status : String) : Bool :=
  status = "completed" || status = "success" || status = "pending"

/-- A trace with no failed record and no skip marker. -/
def cleanTrace (trace : List StepResult) : Bool :=
  trace.all fun r => cleanStatus r.status

/-- Shape of every trace `_handle_partial_success` builds: a clean prefix,
one failed record carrying an error string, and — exactly when steps
remained — a final skip note listing their descriptions. -/
def PartialShape (remaining : List StepD) (trace : List StepResult) : Prop :=
  ∃ (pre : List StepResult) (f : StepResult),
    cleanTrace pre = true ∧ f.status = "failed" ∧ f.action_type = "tool_call" ∧
    f.error.isSome = true ∧ f.partial_success = true ∧
    ((remaining = [] ∧ trace = pre ++ [f]) ∨
     (remaining ≠ [] ∧ trace = pre ++ [f, skipNote remaining]))

/-- Appending a clean record keeps a trace clean. -/
theorem cleanTrace_append_one (trace : List StepResult) (r : StepResult)
    (h1 : cleanTrace trace = true) (h2 : cleanStatus r.status = true) :
    cleanTrace (trace ++ [r]) = true := by
  unfold cleanTrace at *
  rw [List.all_append]
  simp [h1, h2]

/-- The output of `_handle_partial_success` on a clean prefix has the
partial shape. -/
theorem handlePartialSuccess_shape (completedSteps : List StepResult)
    (failedStep : StepD) (failedStepNumV : Val) (remainingSteps : List StepD)
    (error : String) (hclean : cleanTrace completedSteps = true) :
    PartialShape remainingSteps
      (handlePartialSuccess completedSteps failedStep failedStepNumV
        remainingSteps error) := by
  unfold handlePartialSuccess
  dsimp only
  refine ⟨completedSteps,
    { step := failedStepNumV,
      description := failedStep.description.getD "Failed step",
      status := "failed", action_type := "tool_call",
      tool := failedStep.tool, parameters := failedStep.tool_parameters,
      output := none, error := some error, partial_success := true },
    hclean, rfl, rfl, rfl, rfl, ?_⟩
  by_cases hrem : remainingSteps.isEmpty
  · left
    exact ⟨List.isEmpty_iff.mp hrem, by rw [if_pos hrem]⟩
  · right
    refine ⟨fun hcon => hrem (by simp [hcon]), ?_⟩
    rw [if_neg hrem]

/-- Whatever the retry loop does from a clean state: continuing keeps the
accumulated trace clean, aborting yields a partial-shaped trace. -/
theorem stepLoop_shape (cfg : Cfg) (stepNumV : Val) (description : String)
    (remainingSteps : List StepD) (fuel : Nat) :
    ∀ (attempts : Nat) (currentStep : StepD) (attempted : List AttemptRec)
      (st : EngSt), cleanTrace st.results = true →
      (∀ st', stepLoop cfg stepNumV description remainingSteps fuel attempts
        currentStep attempted st = .next st' → cleanTrace st'.results = true) ∧
      (∀ trace st', stepLoop cfg stepNumV description remainingSteps fuel
        attempts currentStep attempted st = .done trace st' →
        PartialShape remainingSteps trace) := by
  induction fuel with
  | zero =>
      intro attempts currentStep attempted st hclean
      constructor
      · intro st' h
        unfold stepLoop at h
        injection h with h'
        subst h'
        exact hclean
      · intro trace st' h
        unfold stepLoop at h
        exact LoopOut.noConfusion h
  | succ fuel ih =>
      intro attempts currentStep attempted st hclean
      constructor
      · intro st' h
        unfold stepLoop at h
        dsimp only at h
        cases hex : execSingleToolStep cfg.registry (cfg.toolBeh st.toolN)
            currentStep stepNumV description with
        | ok r =>
            rw [hex] at h
            dsimp only at h
            injection h with h'
            subst h'
            obtain ⟨_, _, h3, _, _, _⟩ := execSingleToolStep_ok _ _ _ _ _ _ hex
            exact cleanTrace_append_one _ _ hclean (by simp [cleanStatus, h3])
        | error e =>
            rw [hex] at h
            dsimp only at h
            split at h <;> try exact LoopOut.noConfusion h
            split at h <;> try exact LoopOut.noConfusion h
            split at h <;> try exact LoopOut.noConfusion h
            split at h
            · exact (ih _ _ _ _ (by exact hclean)).1 st' h
            · split at h
              · exact (ih _ _ _ _ (by exact hclean)).1 st' h
              · exact LoopOut.noConfusion h
      · intro trace st' h
        unfold stepLoop at h
        dsimp only at h
        cases hex : execSingleToolStep cfg.registry (cfg.toolBeh st.toolN)
            currentStep stepNumV description with
        | ok r =>
            rw [hex] at h
            dsimp only at h
            exact LoopOut.noConfusion h
        | error e =>
            rw [hex] at h
            dsimp only at h
            split at h
            · injection h with h1 h2
              subst h1
              exact handlePartialSuccess_shape _ _ _ _ _ (by exact hclean)
            split at h
            · injection h with h1 h2
              subst h1
              exact handlePartialSuccess_shape _ _ _ _ _ (by exact hclean)
            split at h
            · injection h with h1 h2
              subst h1
              exact handlePartialSuccess_shape _ _ _ _ _ (by exact hclean)
            split at h
            · exact (ih _ _ _ _ (by exact hclean)).2 trace st' h
            split at h
            · exact (ih _ _ _ _ (by exact hclean)).2 trace st' h
            · injection h with h1 h2
              subst h1
              exact handlePartialSuccess_shape _ _ _ _ _ (by exact hclean)

/-- Every run from a clean state ends in a fully clean trace or in a
partial-shaped trace whose remaining-steps list is a suffix of the plan. -/
theorem runPlanAux_shape (cfg : Cfg) :
    ∀ (plan : List StepD) (st : EngSt), cleanTrace st.results = true →
      cleanTrace (runPlanAux cfg plan st).results = true ∨
      ∃ rem : List StepD, rem.IsSuffix plan ∧
        PartialShape rem (runPlanAux cfg plan st).results := by
  intro plan
  induction plan with
  | nil =>
      intro st h
      left
      simpa [runPlanAux] using h
  | cons p rest ih =>
      intro st hclean
      by_cases hr : p.action_type = some "reasoning"
      · rw [runPlanAux_cons_reasoning cfg p rest st hr]
        rcases ih { st with results := st.results ++ [reasoningStepResult p] }
            (cleanTrace_append_one _ _ hclean rfl)
          with hcl | ⟨rem, hsuf, hshape⟩
        · exact Or.inl hcl
        · exact Or.inr ⟨rem, hsuf.trans (List.suffix_cons p rest), hshape⟩
      by_cases hs : p.action_type = some "synthesis"
      · rw [runPlanAux_cons_synthesis cfg p rest st hs]
        rcases ih { st with results := st.results ++ [synthesisStepResult p] }
            (cleanTrace_append_one _ _ hclean rfl)
          with hcl | ⟨rem, hsuf, hshape⟩
        · exact Or.inl hcl
        · exact Or.inr ⟨rem, hsuf.trans (List.suffix_cons p rest), hshape⟩
      by_cases ht : p.action_type = some "tool_call"
      · rw [runPlanAux_cons_toolcall cfg p rest st ht]
        cases hout : stepLoop cfg (numVal p) (p.description.getD "Unknown step")
            rest (cfg.maxReplanningAttempts + 1) 0 p [] st with
        | done trace st' =>
            right
            refine ⟨rest, List.suffix_cons p rest, ?_⟩
            have := (stepLoop_shape cfg (numVal p)
              (p.description.getD "Unknown step") rest
              (cfg.maxReplanningAttempts + 1) 0 p [] st hclean).2 trace st' hout
            simpa using this
        | next st' =>
            have hcl' := (stepLoop_shape cfg (numVal p)
              (p.description.getD "Unknown step") rest
              (cfg.maxReplanningAttempts + 1) 0 p [] st hclean).1 st' hout
            dsimp only
            rcases ih _ hcl' with hcl | ⟨rem, hsuf, hshape⟩
            · exact Or.inl hcl
            · exact Or.inr ⟨rem, hsuf.trans (List.suffix_cons p rest), hshape⟩
      · rw [runPlanAux, if_neg hr, if_neg hs, if_neg ht]
        right
        exact ⟨rest, List.suffix_cons p rest,
          handlePartialSuccess_shape _ _ _ _ _ hclean⟩

/-- A clean trace holds no failed record. -/
theorem cleanTrace_no_failed (trace : List StepResult)
    (h : cleanTrace trace = true) :
    ∀ x ∈ trace, x.status ≠ "failed" := by
  intro x hx hcon
  have hall := List.all_eq_true.mp h x hx
  rw [hcon] at hall
  simp [cleanStatus] at hall

/-- In a list made of a marker-free prefix, one marked element and a
marker-free tail, the marked element's decomposition is unique. -/
theorem failed_position :
    ∀ (pre0 : List StepResult) (f0 : StepResult) (tail0 : List StepResult),
      (∀ x ∈ pre0, x.status ≠ "failed") → f0.status = "failed" →
      (∀ x ∈ tail0, x.status ≠ "failed") →
      ∀ pre f suf, pre0 ++ f0 :: tail0 = pre ++ f :: suf →
        f.status = "failed" → pre = pre0 ∧ f = f0 ∧ suf = tail0 := by
  intro pre0
  induction pre0 with
  | nil =>
      intro f0 tail0 h0 hf0 ht pre f suf heq hf
      cases pre with
      | nil =>
          simp only [List.nil_append] at heq
          injection heq with h1 h2
          exact ⟨rfl, h1.symm, h2.symm⟩
      | cons q qs =>
          simp only [List.nil_append, List.cons_append] at heq
          injection heq with h1 h2
          exact absurd hf (ht f (by rw [h2]; simp))
  | cons x xs ih =>
      intro f0 tail0 h0 hf0 ht pre f suf heq hf
      cases pre with
      | nil =>
          simp only [List.cons_append, List.nil_append] at heq
          injection heq with h1 h2
          exact absurd (h1 ▸ hf) (h0 x (by simp))
      | cons q qs =>
          simp only [List.cons_append] at heq
          injection heq with h1 h2
          have h0' : ∀ y ∈ xs, y.status ≠ "failed" :=
            fun y hy => h0 y (by simp [hy])
          obtain ⟨hp, hff, hs⟩ := ih f0 tail0 h0' hf0 ht qs f suf h2 hf
          exact ⟨by rw [h1, hp], hff, hs⟩

/-- Claim C1: every trace the engine returns has at most one failed-status
entry, and in every decomposition around a failed entry the failed entry
is the last one except for an optional final skip-note record (the
`skipNote` of the remaining steps, whose status is "skipped" and whose
action type is "note"). -/
theorem c1_at_most_one_failed_and_last (cfg : Cfg) (plan : List StepD) :
    (((runPlan cfg plan).results.filter
        (fun r => r.status == "failed")).length ≤ 1) ∧
    (∀ pre f suf, (runPlan cfg plan).results = pre ++ f :: suf →
      f.status = "failed" →
      suf = [] ∨ ∃ rem : List StepD, rem ≠ [] ∧ suf = [skipNote rem]) := by
  unfold runPlan
  rcases runPlanAux_shape cfg plan {} rfl with hcl |
    ⟨rem, hsuf, pre0, f0, hpc, hf0, hfa, hfe, hfp, hcase⟩
  · constructor
    · have hnil : (runPlanAux cfg plan {}).results.filter
          (fun r => r.status == "failed") = [] := by
        apply List.filter_eq_nil_iff.mpr
        intro a ha
        simp only [beq_iff_eq]
        exact cleanTrace_no_failed _ hcl a ha
      simp [hnil]
    · intro pre f suf heq hfail
      exact absurd hfail (cleanTrace_no_failed _ hcl f (by rw [heq]; simp))
  · have hp0 : pre0.filter (fun r => r.status == "failed") = [] := by
      apply List.filter_eq_nil_iff.mpr
      intro a ha
      simp only [beq_iff_eq]
      exact cleanTrace_no_failed _ hpc a ha
    rcases hcase with ⟨hrem, htr⟩ | ⟨hrem, htr⟩
    · rw [htr]
      constructor
      · rw [List.filter_append, hp0]
        simp [hf0]
      · intro pre f suf heq hfail
        obtain ⟨_, _, hsuf'⟩ := failed_position pre0 f0 []
          (cleanTrace_no_failed _ hpc) hf0 (by simp) pre f suf heq hfail
        exact Or.inl hsuf'
    · rw [htr]
      constructor
      · rw [List.filter_append, hp0]
        simp [hf0, skipNote]
      · intro pre f suf heq hfail
        obtain ⟨_, _, hsuf'⟩ := failed_position pre0 f0 [skipNote rem]
          (cleanTrace_no_failed _ hpc) hf0
          (by intro x hx
              simp only [List.mem_singleton] at hx
              subst hx
              simp [skipNote])
          pre f suf heq hfail
        exact Or.inr ⟨rem, hrem, hsuf'⟩

/-!
Claim C8: the crash-aware layer.  The total engine above reads the corners
in which the source raises its own exception as if the source returned;
this layer embeds those raises faithfully as `PyErr` values.  The fallback
engine is invoked inside the `except Exception` suite of
`_execute_plan_with_replanning` (agent.py:438), where a newly raised
exception is not caught, so a raise propagates out of the engine: the
caller `run` catches it only to answer with a generic apology, and no
execution trace is produced.
-/

/-- An exception raised by the recovery machinery itself (as opposed to a
tool failure, which the engine absorbs). -/
inductive PyErr
  | attributeError (msg : String)
  | typeError (msg : String)
deriving DecidableEq, Repr

/-- Faithful reading of `a.get('parameters', {})` followed by `.get(key)` on
an attempt record: the engine always sets the 'parameters' key
(agent.py:392-396), so the `{}` default never applies, and a record whose
stored 'parameters' is `None` makes the second `.get` raise
AttributeError. -/
def attParamsPy (a : AttemptRec) : Except PyErr Params :=
  match a.parameters with
  | some ps => .ok ps
  | none => .error (.attributeError "'NoneType' object has no attribute 'get'")

/-- Python's `any` over a generator whose element test may raise: elements
are tested left to right, stopping at the first `True`. -/
def anyPy {α : Type} (f : α → Except PyErr Bool) : List α → Except PyErr Bool
  | [] => .ok false
  | a :: rest =>
      match f a with
      | .error e => .error e
      | .ok true => .ok true
      | .ok false => anyPy f rest

/-- Crash-aware `SecAgent._fallback_filing_not_found`: where
`fallbackFilingNotFound` totalizes, this embedding raises as the source
does — the already-tried scans raise AttributeError on a `None`
'parameters' record, and a truthy non-numeric 'year' raises TypeError at
`year + (-1)`.  (Python's `True` is the integer `1`, so a boolean 'year'
decrements to the integer `0`, below the 2010 floor.) -/
def fallbackFilingNotFoundPy (failedStep : StepD) (attempted : List AttemptRec) :
    Except PyErr (Option StepD) :=
  let originalParams := failedStep.tool_parameters.getD []
  let tryForm : Except PyErr (Option StepD) :=
    match pget originalParams "form_type" with
    | some (.str formType) =>
        match alternativeForms formType with
        | some altForm =>
            match anyPy (fun a =>
                match attParamsPy a with
                | .error e => .error e
                | .ok ps =>
                    .ok (decide (pget ps "form_type" = some (.str altForm))))
              attempted with
            | .error e => .error e
            | .ok true => .ok none
            | .ok false =>
                .ok (some { failedStep with
                  tool_parameters :=
                    some (pset originalParams "form_type" (.str altForm)) })
        | none => .ok none
    | _ => .ok none
  match tryForm with
  | .error e => .error e
  | .ok (some s) => .ok (some s)
  | .ok none =>
      match pget originalParams "year" with
      | some yearV =>
          if truthy yearV then
            match yearV with
            | .int year =>
                let newYear := year + (-1)
                match anyPy (fun a =>
                    match attParamsPy a with
                    | .error e => .error e
                    | .ok ps =>
                        .ok (decide (pget ps "year" = some (.int newYear))))
                  attempted with
                | .error e => .error e
                | .ok alreadyTried =>
                    if ¬ alreadyTried ∧ newYear ≥ 2010 then
                      .ok (some { failedStep with
                        tool_parameters :=
                          some (pset originalParams "year" (.int newYear)) })
                    else .ok none
            | .bool _ =>
                match anyPy (fun a =>
                    match attParamsPy a with
                    | .error e => .error e
                    | .ok ps =>
                        .ok (decide (pget ps "year" = some (.int 0))))
                  attempted with
                | .error e => .error e
                | .ok _ => .ok none
            | _ =>
                .error (.typeError "can only concatenate str (not \x22int\x22) to str")
          else .ok none
      | none => .ok none

/-- Crash-aware suffix loop of `_fallback_company_not_found`: the
already-tried scan raises AttributeError on a `None` 'parameters' record. -/
def suffixLoopCompanyPy (failedStep : StepD) (originalParams : Params)
    (identifier : String) (attempted : List AttemptRec) :
    List String → Except PyErr (Option StepD)
  | [] => .ok none
  | suffix :: rest =>
      if identifier.endsWith suffix then
        let cleanIdentifier := (identifier.dropRight suffix.length).trim
        match anyPy (fun a =>
            match attParamsPy a with
            | .error e => .error e
            | .ok ps =>
                .ok (decide (pget ps "identifier" = some (.str cleanIdentifier))))
          attempted with
        | .error e => .error e
        | .ok false =>
            .ok (some { failedStep with
              tool_parameters :=
                some (pset originalParams "identifier" (.str cleanIdentifier)) })
        | .ok true =>
            suffixLoopCompanyPy failedStep originalParams identifier attempted rest
      else suffixLoopCompanyPy failedStep originalParams identifier attempted rest

/-- Crash-aware `SecAgent._fallback_company_not_found`: once the search
substitute has been tried, a truthy non-string identifier reaches
`identifier.endswith(suffix)` and raises AttributeError. -/
def fallbackCompanyNotFoundPy (failedStep : StepD) (attempted : List AttemptRec) :
    Except PyErr (Option StepD) :=
  let originalParams := failedStep.tool_parameters.getD []
  match companyIdentifier originalParams with
  | none => .ok none
  | some identifierV =>
      if ¬ truthy identifierV then .ok none
      else
        let alreadyTriedSearch := attempted.any fun a =>
          decide (a.tool = some "search_companies")
        if ¬ alreadyTriedSearch then
          .ok (some { step := failedStep.step,
                      description :=
                        some ("Search for company: " ++ pyStr identifierV),
                      action_type := some "tool_call",
                      tool := some "search_companies",
                      tool_parameters :=
                        some [("query", identifierV), ("limit", .int 5)],
                      expected_output :=
                        some (.str ("Company search results for " ++
                          pyStr identifierV)) })
        else
          match identifierV with
          | .str identifier =>
              suffixLoopCompanyPy failedStep originalParams identifier attempted
                removeSuffixes
          | .int _ =>
              .error (.attributeError "'int' object has no attribute 'endswith'")
          | .bool _ =>
              .error (.attributeError "'bool' object has no attribute 'endswith'")
          | .vnone =>
              .error (.attributeError "'NoneType' object has no attribute 'endswith'")

/-- Crash-aware `SecAgent._fallback_data_not_found`: its guards read only
`a.get('tool')` and the failed step's own parameters, none of which can
raise, so it agrees with the total embedding everywhere. -/
def fallbackDataNotFoundPy (failedStep : StepD) (attempted : List AttemptRec) :
    Except PyErr (Option StepD) :=
  .ok (fallbackDataNotFound failedStep attempted)

/-- Crash-aware `SecAgent._try_predefined_fallback`: the dispatch itself
reads only the error message. -/
def tryPredefinedFallbackPy (failedStep : StepD) (errorMessage : String)
    (attempted : List AttemptRec) : Except PyErr (Option StepD) :=
  let errorLower := lowerStr errorMessage
  if containsS errorLower "not found" || containsS errorLower "no filings found" then
    if containsS errorLower "filing" || containsS errorLower "10-k" ||
        containsS errorLower "10-q" then
      fallbackFilingNotFoundPy failedStep attempted
    else if containsS errorLower "company" || containsS errorLower "cik" then
      fallbackCompanyNotFoundPy failedStep attempted
    else
      fallbackDataNotFoundPy failedStep attempted
  else
    .ok none

/-- The retry loop of `_execute_plan_with_replanning` with the crash-aware
fallback engine: identical to `stepLoop` except that a `PyErr` raised by
`_try_predefined_fallback` — called inside the `except` suite, where
nothing catches it — propagates out of the loop. -/
def stepLoopPy (cfg : Cfg) (stepNumV : Val) (description : String)
    (remainingSteps : List StepD) :
    Nat → Nat → StepD → List AttemptRec → EngSt → Except PyErr LoopOut
  | 0, _, _, _, st => .ok (.next st)
  | fuel + 1, attempts, currentStep, attempted, st =>
      let st1 : EngSt :=
        { st with
          toolN := st.toolN + 1,
          log := st.log ++
            [.execEv currentStep.tool (currentStep.tool_parameters.getD [])
              attempts st.total] }
      match execSingleToolStep cfg.registry (cfg.toolBeh st.toolN) currentStep
          stepNumV description with
      | .ok result => .ok (.next { st1 with results := st1.results ++ [result] })
      | .error errorMsg =>
          let attempted := attempted ++
            [{ tool := currentStep.tool,
               parameters := currentStep.tool_parameters, error := errorMsg }]
          if attempts ≥ cfg.maxReplanningAttempts then
            .ok (.done (handlePartialSuccess st1.results currentStep stepNumV
              remainingSteps errorMsg) st1)
          else if st1.total ≥ cfg.maxTotalReplannings then
            .ok (.done (handlePartialSuccess st1.results currentStep stepNumV
              remainingSteps "Exceeded maximum replanning attempts for this query")
              st1)
          else if classifyError errorMsg = .unrecoverable then
            .ok (.done (handlePartialSuccess st1.results currentStep stepNumV
              remainingSteps errorMsg) st1)
          else
            let st2 : EngSt :=
              { st1 with log := st1.log ++ [.fbEv attempts st1.total] }
            match tryPredefinedFallbackPy currentStep errorMsg attempted with
            | .error e => .error e
            | .ok (some fallbackStep) =>
                stepLoopPy cfg stepNumV description remainingSteps fuel
                  (attempts + 1) fallbackStep attempted
                  { st2 with total := st2.total + 1 }
            | .ok none =>
                let st3 : EngSt := { st2 with
                  log := st2.log ++ [.llmEv attempts st2.total],
                  llmN := st2.llmN + 1 }
                match llmReplanOutcome (cfg.llmBeh st2.llmN) with
                | some replannedStep =>
                    stepLoopPy cfg stepNumV description remainingSteps fuel
                      (attempts + 1) replannedStep attempted
                      { st3 with total := st3.total + 1 }
                | none =>
                    .ok (.done (handlePartialSuccess st3.results currentStep
                      stepNumV remainingSteps "Could not find alternative approach")
                      st3)

/-- The plan loop over the crash-aware retry loop. -/
def runPlanAuxPy (cfg : Cfg) : List StepD → EngSt → Except PyErr EngSt
  | [], st => .ok st
  | step :: rest, st =>
      if step.action_type = some "reasoning" then
        runPlanAuxPy cfg rest
          { st with results := st.results ++ [reasoningStepResult step] }
      else if step.action_type = some "synthesis" then
        runPlanAuxPy cfg rest
          { st with results := st.results ++ [synthesisStepResult step] }
      else if step.action_type = some "tool_call" then
        match stepLoopPy cfg (numVal step) (step.description.getD "Unknown step")
            rest (cfg.maxReplanningAttempts + 1) 0 step [] st with
        | .error e => .error e
        | .ok (.done trace st') => .ok { st' with results := trace }
        | .ok (.next st') => runPlanAuxPy cfg rest st'
      else
        .ok { st with
          results :=
            handlePartialSuccess st.results step (numVal step) rest
              ("Step " ++ pyStr (numVal step) ++
                " failed: Unknown action_type '" ++
                (match step.action_type with | some a => a | none => "None") ++
                "'") }

/-- `_execute_plan_with_replanning` with the crash-aware recovery machinery:
`.error` is an exception escaping the engine, which its caller `run` only
meets with a generic apology — no execution trace exists then. -/
def runPlanPy (cfg : Cfg) (plan : List StepD) : Except PyErr EngSt :=
  runPlanAuxPy cfg plan {}

/-- Tool oracle of the C8 evaluation: the first call fails with a message no
fallback pattern recognizes, every later one with a filing-not-found
message. -/
def c8Beh : Nat → ToolReply
  | 0 => .returned [("success", .bool false),
      ("error", .str "upstream fetch failed")]
  | _ => .returned [("success", .bool false),
      ("error", .str "10-K filing not found for XYZ in 2023")]

/-- The well-formed substitute step the collaborator offers in the C8
evaluation. -/
def c8Replan : StepD :=
  { step := some 1, action_type := some "tool_call",
    description := some "Retry with explicit filing parameters",
    tool := some "get_recent_filings",
    tool_parameters := some [("ticker", .str "XYZ"),
      ("form_type", .str "10-K"), ("year", .int 2023)] }

/-- Configuration of the C8 evaluation, with the default budgets. -/
def c8Cfg : Cfg :=
  { registry := ["get_recent_filings"],
    toolBeh := c8Beh,
    llmBeh := fun _ => .parsed c8Replan }

/-- One-step plan of the C8 evaluation: the planned step carries no
'tool_parameters' key, so its attempt record stores `None` under
'parameters' (agent.py:394). -/
def c8Plan : List StepD :=
  [{ step := some 1, action_type := some "tool_call",
     description := some "Fetch recent filings",
     tool := some "get_recent_filings" }]

/-- Claim C8 evaluated at the failing input: the step without
'tool_parameters' fails, the collaborator replans it into a step carrying a
'form_type', that step fails with a filing-not-found message, and the
filing fallback's already-tried scan evaluates
`a.get('parameters', {}).get('form_type')` on the first attempt record —
whose stored 'parameters' is `None` — raising AttributeError, which
escapes `_execute_plan_with_replanning`: no execution trace is returned,
against the claim's guarantee.  (The total model `runPlan` returns a trace
on this very input; model and source diverge exactly at this read.) -/
theorem c8_recovery_crash_evaluation :
    runPlanPy c8Cfg c8Plan =
      .error (.attributeError "'NoneType' object has no attribute 'get'") := by
  rfl

/-!
Claim C2: budget monotonicity and discipline.
-/

/-- The `total_replannings` value an event was logged with. -/
def evTotal : Ev → Nat
  | .execEv _ _ _ total => total
  | .fbEv _ total => total
  | .llmEv _ total => total

/-- The per-step attempt counter an event was logged with. -/
def evAttempts : Ev → Nat
  | .execEv _ _ attempts _ => attempts
  | .fbEv attempts _ => attempts
  | .llmEv attempts _ => attempts

/-- Recovery events: fallback-generation and LLM-replanning calls. -/
def isRecovEv : Ev → Bool
  | .execEv _ _ _ _ => false
  | .fbEv _ _ => true
  | .llmEv _ _ => true

/-- Well-formedness of an event log with respect to a current counter
value: totals never decrease along the log, never exceed the current
counter, and every recovery event was logged strictly inside both
budgets. -/
def logOkL (cfg : Cfg) (log : List Ev) (total : Nat) : Prop :=
  List.Pairwise (· ≤ ·) (log.map evTotal) ∧
  (∀ e ∈ log, evTotal e ≤ total) ∧
  (∀ e ∈ log, isRecovEv e = true →
    evAttempts e < cfg.maxReplanningAttempts ∧
    evTotal e < cfg.maxTotalReplannings)

/-- Appending an event carrying the current counter value preserves log
well-formedness. -/
theorem logOkL_append (cfg : Cfg) (log : List Ev) (total : Nat) (e : Ev)
    (h : logOkL cfg log total) (he : evTotal e = total)
    (hrec : isRecovEv e = true →
      evAttempts e < cfg.maxReplanningAttempts ∧
      evTotal e < cfg.maxTotalReplannings) :
    logOkL cfg (log ++ [e]) total := by
  obtain ⟨h1, h2, h3⟩ := h
  refine ⟨?_, ?_, ?_⟩
  · rw [List.map_append]
    apply List.pairwise_append.mpr
    refine ⟨h1, by simp, ?_⟩
    intro x hx y hy
    simp only [List.map_cons, List.map_nil, List.mem_singleton] at hy
    subst hy
    obtain ⟨e', he', hx'⟩ := List.mem_map.mp hx
    rw [← hx', he]
    exact h2 e' he'
  · intro x hx
    rcases List.mem_append.mp hx with hl | hr
    · exact h2 x hl
    · simp only [List.mem_singleton] at hr
      subst hr
      exact le_of_eq he
  · intro x hx hrx
    rcases List.mem_append.mp hx with hl | hr
    · exact h3 x hl hrx
    · simp only [List.mem_singleton] at hr
      subst hr
      exact hrec hrx

/-- Log well-formedness is monotone in the counter. -/
theorem logOkL_mono (cfg : Cfg) (log : List Ev) (total total' : Nat)
    (h : logOkL cfg log total) (hle : total ≤ total') :
    logOkL cfg log total' :=
  ⟨h.1, fun e he => le_trans (h.2.1 e he) hle, h.2.2⟩

/-- Appending a recovery event carrying the current counters, inside both
budgets, preserves log well-formedness. -/
theorem logOkL_append_recov (cfg : Cfg) (log : List Ev) (total attempts : Nat)
    (e : Ev) (h : logOkL cfg log total) (he : evTotal e = total)
    (ha : evAttempts e = attempts)
    (hatt : attempts < cfg.maxReplanningAttempts)
    (htot : total < cfg.maxTotalReplannings) :
    logOkL cfg (log ++ [e]) total := by
  apply logOkL_append cfg log total e h he
  intro _
  rw [ha, he]
  exact ⟨hatt, htot⟩

/-- The retry loop preserves log well-formedness and never decreases the
run-wide counter. -/
theorem stepLoop_log (cfg : Cfg) (stepNumV : Val) (description : String)
    (remainingSteps : List StepD) (fuel : Nat) :
    ∀ (attempts : Nat) (currentStep : StepD) (attempted : List AttemptRec)
      (st : EngSt), logOkL cfg st.log st.total →
      (∀ st', stepLoop cfg stepNumV description remainingSteps fuel attempts
          currentStep attempted st = .next st' →
        logOkL cfg st'.log st'.total ∧ st.total ≤ st'.total) ∧
      (∀ trace st', stepLoop cfg stepNumV description remainingSteps fuel
          attempts currentStep attempted st = .done trace st' →
        logOkL cfg st'.log st'.total ∧ st.total ≤ st'.total) := by
  induction fuel with
  | zero =>
      intro attempts currentStep attempted st hok
      constructor
      · intro st' h
        unfold stepLoop at h
        injection h with h'
        subst h'
        exact ⟨hok, le_refl _⟩
      · intro trace st' h
        unfold stepLoop at h
        exact LoopOut.noConfusion h
  | succ fuel ih =>
      intro attempts currentStep attempted st hok
      have hok1 : logOkL cfg (st.log ++
          [.execEv currentStep.tool (currentStep.tool_parameters.getD [])
            attempts st.total]) st.total :=
        logOkL_append cfg st.log st.total _ hok rfl
          (fun hcon => Bool.noConfusion hcon)
      constructor
      · intro st' h
        unfold stepLoop at h
        dsimp only at h
        cases hex : execSingleToolStep cfg.registry (cfg.toolBeh st.toolN)
            currentStep stepNumV description with
        | ok r =>
            rw [hex] at h
            dsimp only at h
            injection h with h'
            subst h'
            exact ⟨hok1, le_refl _⟩
        | error e =>
            rw [hex] at h
            dsimp only at h
            split at h <;> try exact LoopOut.noConfusion h
            rename_i hatt
            split at h <;> try exact LoopOut.noConfusion h
            rename_i htot
            split at h <;> try exact LoopOut.noConfusion h
            have hfb : logOkL cfg ((st.log ++
                [.execEv currentStep.tool
                  (currentStep.tool_parameters.getD []) attempts st.total]) ++
                [.fbEv attempts st.total]) st.total :=
              logOkL_append_recov cfg _ st.total attempts _ hok1 rfl rfl
                (by omega) (by omega)
            split at h
            · have hr := (ih _ _ _ _
                (by exact logOkL_mono cfg _ st.total _ hfb (Nat.le_succ _))).1
                st' h
              exact ⟨hr.1, le_trans (Nat.le_succ _) hr.2⟩
            · have hllm : logOkL cfg (((st.log ++
                  [.execEv currentStep.tool
                    (currentStep.tool_parameters.getD []) attempts st.total]) ++
                  [.fbEv attempts st.total]) ++
                  [.llmEv attempts st.total]) st.total :=
                logOkL_append_recov cfg _ st.total attempts _ hfb rfl rfl
                  (by omega) (by omega)
              split at h
              · have hr := (ih _ _ _ _
                  (by exact logOkL_mono cfg _ st.total _ hllm (Nat.le_succ _))).1
                  st' h
                exact ⟨hr.1, le_trans (Nat.le_succ _) hr.2⟩
              · exact LoopOut.noConfusion h
      · intro trace st' h
        unfold stepLoop at h
        dsimp only at h
        cases hex : execSingleToolStep cfg.registry (cfg.toolBeh st.toolN)
            currentStep stepNumV description with
        | ok r =>
            rw [hex] at h
            dsimp only at h
            exact LoopOut.noConfusion h
        | error e =>
            rw [hex] at h
            dsimp only at h
            split at h
            · injection h with h1 h2
              subst h2
              exact ⟨hok1, le_refl _⟩
            rename_i hatt
            split at h
            · injection h with h1 h2
              subst h2
              exact ⟨hok1, le_refl _⟩
            rename_i htot
            split at h
            · injection h with h1 h2
              subst h2
              exact ⟨hok1, le_refl _⟩
            have hfb : logOkL cfg ((st.log ++
                [.execEv currentStep.tool
                  (currentStep.tool_parameters.getD []) attempts st.total]) ++
                [.fbEv attempts st.total]) st.total :=
              logOkL_append_recov cfg _ st.total attempts _ hok1 rfl rfl
                (by omega) (by omega)
            split at h
            · have hr := (ih _ _ _ _
                (by exact logOkL_mono cfg _ st.total _ hfb (Nat.le_succ _))).2
                trace st' h
              exact ⟨hr.1, le_trans (Nat.le_succ _) hr.2⟩
            · have hllm : logOkL cfg (((st.log ++
                  [.execEv currentStep.tool
                    (currentStep.tool_parameters.getD []) attempts st.total]) ++
                  [.fbEv attempts st.total]) ++
                  [.llmEv attempts st.total]) st.total :=
                logOkL_append_recov cfg _ st.total attempts _ hfb rfl rfl
                  (by omega) (by omega)
              split at h
              · have hr := (ih _ _ _ _
                  (by exact logOkL_mono cfg _ st.total _ hllm (Nat.le_succ _))).2
                  trace st' h
                exact ⟨hr.1, le_trans (Nat.le_succ _) hr.2⟩
              · injection h with h1 h2
                subst h2
                exact ⟨hllm, le_refl _⟩

/-- The plan loop preserves log well-formedness. -/
theorem runPlanAux_log (cfg : Cfg) :
    ∀ (plan : List StepD) (st : EngSt), logOkL cfg st.log st.total →
      logOkL cfg (runPlanAux cfg plan st).log (runPlanAux cfg plan st).total := by
  intro plan
  induction plan with
  | nil =>
      intro st h
      simpa [runPlanAux] using h
  | cons p rest ih =>
      intro st hok
      by_cases hr : p.action_type = some "reasoning"
      · rw [runPlanAux_cons_reasoning cfg p rest st hr]
        exact ih { st with results := st.results ++ [reasoningStepResult p] } hok
      by_cases hs : p.action_type = some "synthesis"
      · rw [runPlanAux_cons_synthesis cfg p rest st hs]
        exact ih { st with results := st.results ++ [synthesisStepResult p] } hok
      by_cases ht : p.action_type = some "tool_call"
      · rw [runPlanAux_cons_toolcall cfg p rest st ht]
        cases hout : stepLoop cfg (numVal p) (p.description.getD "Unknown step")
            rest (cfg.maxReplanningAttempts + 1) 0 p [] st with
        | done trace st' =>
            dsimp only
            exact ((stepLoop_log cfg (numVal p)
              (p.description.getD "Unknown step") rest
              (cfg.maxReplanningAttempts + 1) 0 p [] st hok).2 trace st' hout).1
        | next st' =>
            dsimp only
            exact ih st' ((stepLoop_log cfg (numVal p)
              (p.description.getD "Unknown step") rest
              (cfg.maxReplanningAttempts + 1) 0 p [] st hok).1 st' hout).1
      · rw [runPlanAux, if_neg hr, if_neg hs, if_neg ht]
        exact hok

/-- Claim C2 (amended): within one run the total-replannings counter never
decreases along the event log; fallback generation and LLM replanning are
only ever attempted while the per-step attempt counter is strictly below
`max_replanning_attempts` and the run-wide counter is strictly below
`max_total_replannings`; and when a step attempt fails with either budget
already exhausted, the loop aborts at once into the partial-result path
with no recovery event — but exhaustion alone does not terminate the run:
an attempt already adopted may still succeed (see the counterexample). -/
theorem c2_amended_budget_discipline :
    (∀ (cfg : Cfg) (plan : List StepD),
      List.Pairwise (· ≤ ·) ((runPlan cfg plan).log.map evTotal) ∧
      ∀ e ∈ (runPlan cfg plan).log, isRecovEv e = true →
        evAttempts e < cfg.maxReplanningAttempts ∧
        evTotal e < cfg.maxTotalReplannings) ∧
    (∀ (cfg : Cfg) (stepNumV : Val) (description : String)
        (remainingSteps : List StepD) (fuel attempts : Nat)
        (currentStep : StepD) (attempted : List AttemptRec) (st : EngSt)
        (e : String),
      execSingleToolStep cfg.registry (cfg.toolBeh st.toolN) currentStep
        stepNumV description = .error e →
      (attempts ≥ cfg.maxReplanningAttempts ∨
        st.total ≥ cfg.maxTotalReplannings) →
      ∃ (msg : String) (st' : EngSt),
        stepLoop cfg stepNumV description remainingSteps (fuel + 1) attempts
          currentStep attempted st =
          .done (handlePartialSuccess st.results currentStep stepNumV
            remainingSteps msg) st' ∧
        st'.log = st.log ++ [.execEv currentStep.tool
          (currentStep.tool_parameters.getD []) attempts st.total]) := by
  constructor
  · intro cfg plan
    have hok := runPlanAux_log cfg plan {} ⟨by simp, by simp, by simp⟩
    exact ⟨hok.1, hok.2.2⟩
  · intro cfg stepNumV description remainingSteps fuel attempts currentStep
      attempted st e hexec hbud
    unfold stepLoop
    dsimp only
    rw [hexec]
    dsimp only
    by_cases hatt : attempts ≥ cfg.maxReplanningAttempts
    · rw [if_pos hatt]
      exact ⟨e, _, rfl, rfl⟩
    · rw [if_neg hatt]
      have htot : st.total ≥ cfg.maxTotalReplannings := by
        rcases hbud with hb | hb
        · exact absurd hb hatt
        · exact hb
      rw [if_pos htot]
      exact ⟨"Exceeded maximum replanning attempts for this query", _, rfl, rfl⟩

/-- Tool behavior of the C2 counterexample run: each of three filing
lookups fails with recognized filing-not-found messages until its final
fallback, which succeeds. -/
def c2Beh : Nat → ToolReply
  | 0 => .returned [("success", .bool false),
                    ("error", .str "10-K filing not found for AAA in 2023")]
  | 1 => .returned [("success", .bool false),
                    ("error", .str "10-Q filing not found for AAA in 2023")]
  | 3 => .returned [("success", .bool false),
                    ("error", .str "10-K filing not found for BBB in 2023")]
  | 4 => .returned [("success", .bool false),
                    ("error", .str "10-Q filing not found for BBB in 2023")]
  | 6 => .returned [("success", .bool false),
                    ("error", .str "10-K filing not found for CCC in 2023")]
  | _ => .returned [("success", .bool true), ("data", .str "ok")]

/-- Configuration of the C2 counterexample with the default budgets. -/
def c2Cfg : Cfg :=
  { registry := ["get_recent_filings"], toolBeh := c2Beh,
    llmBeh := fun _ => .empty }

/-- A filing-lookup step for the C2 counterexample. -/
def c2Step (n : Int) (t : String) : StepD :=
  { step := some n, action_type := some "tool_call",
    description := some ("Filings for " ++ t),
    tool := some "get_recent_filings",
    tool_parameters := some [("ticker", .str t), ("form_type", .str "10-K"),
      ("year", .int 2023)] }

/-- Plan of the C2 counterexample. -/
def c2Plan : List StepD := [c2Step 1 "AAA", c2Step 2 "BBB", c2Step 3 "CCC"]

/-- Counterexample to C2 as stated: this run uses all five of the default
run-wide replanning budget — the counter ends exactly at
`max_total_replannings` — yet it does not terminate with a partial
result: every recorded step has status "success" and no failed record
exists. -/
theorem c2_counterexample :
    (runPlan c2Cfg c2Plan).total = c2Cfg.maxTotalReplannings ∧
    c2Cfg.maxTotalReplannings = 5 ∧
    (runPlan c2Cfg c2Plan).results.map (fun r => r.status) =
      ["success", "success", "success"] := by
  exact ⟨by decide, by decide, by decide⟩
